import Mathlib

/-!
# Verification of the WranglingWorkshop cleaning and loading pipeline

This file gives a shallow embedding, in Lean 4, of the two core subsystems of
the WranglingWorkshop repository:

* `EmployeeCleaner.clean` from `src/cleaning.py` — the validation and
  imputation engine over a batch of raw employee records, and
* the bulk persistence routines of `src/db.py` (`seed_departments`,
  `insert_employees_df`, `insert_projects_df`, and the SQL statement of
  `insert_employee_projects_df`) together with the PostgreSQL table
  constraints created by `create_tables`.

The embedding follows the Python/pandas/PostgreSQL semantics of the source:

* pandas string columns become `Option String` (NA versus a string value);
* numeric raw cells become `RawNum` (NA, a parseable number, or unparseable
  text), with `pd.to_numeric(errors="coerce")` as `toNumeric`;
* date raw cells become `RawDate`, with dates encoded as `yyyymmdd` integers
  (the comparisons in the source only ever use whole dates);
* `Series.median()` (even length averages the two middle values) and
  `Series.mode().iloc[0]` (most frequent value, smallest on ties, as
  `mode()` returns the tied modes sorted ascending) are modelled directly;
* `.astype(int)` is numpy truncation toward zero, failing when a cell is NA;
* Python `str.strip` / `str.title` are modelled on `List Char`;
* the database connection is a pair of committed/pending states; each SQL
  statement either transforms the pending state or fails, `commit` publishes
  pending, `rollback` restores committed.
-/

namespace WW

deriving instance DecidableEq for Except

/-! ## Definitions: the shallow embedding of the source -/

/-- Python `str.title` transforms one character: a cased (alphabetic) character is
uppercased when the previous character was not cased and lowercased otherwise;
other characters pass through. -/
def titleChar (prev : Bool) (c : Char) : Char :=
  if c.isAlpha then (if prev then c.toLower else c.toUpper) else c

/-- Python `str.title` over a character list, threading whether the previous
character was cased. -/
def pyTitleAux (prev : Bool) : List Char → List Char
  | [] => []
  | c :: cs => titleChar prev c :: pyTitleAux c.isAlpha cs

/-- Python `str.title` (pandas `.str.title()`). -/
def pyTitle (s : String) : String :=
  ⟨pyTitleAux false s.data⟩

/-- Python `str.strip` on a character list: drop leading and trailing whitespace. -/
def stripAux (l : List Char) : List Char :=
  ((l.dropWhile Char.isWhitespace).reverse.dropWhile Char.isWhitespace).reverse

/-- Python `str.strip` (pandas `.str.strip()`). -/
def pyStrip (s : String) : String :=
  ⟨stripAux s.data⟩

/-- A raw cell of a numeric column: NA (`None`/`NaN`), a value that
`pd.to_numeric` parses to the rational `q`, or text that fails coercion. -/
inductive RawNum where
  | null : RawNum
  | num : ℚ → RawNum
  | txt : String → RawNum

deriving DecidableEq

/-- A raw cell of a date column: NA (`None`/`NaT`), a value that
`pd.to_datetime` parses to the day `d` (encoded `yyyymmdd`), or text that
fails coercion. -/
inductive RawDate where
  | null : RawDate
  | day : Int → RawDate
  | txt : String → RawDate

deriving DecidableEq

/-- `pd.to_numeric(x, errors="coerce")`: NA and unparseable text coerce to NaN. -/
def toNumeric : RawNum → Option ℚ
  | .null => none
  | .num q => some q
  | .txt _ => none

/-- `pd.to_datetime(x, errors="coerce")`: NA and unparseable text coerce to NaT. -/
def toDatetime : RawDate → Option Int
  | .null => none
  | .day d => some d
  | .txt _ => none

/-- `pd.isna` on a raw numeric cell: only NA is missing; a text cell is a
value, not NA. -/
def rawNumIsna : RawNum → Bool
  | .null => true
  | .num _ => false
  | .txt _ => false

/-- `pd.isna` on a raw date cell. -/
def rawDateIsna : RawDate → Bool
  | .null => true
  | .day _ => false
  | .txt _ => false

/-- numpy `.astype(int)` on a float: truncation toward zero. -/
def astypeInt (q : ℚ) : Int :=
  if 0 ≤ q then ⌊q⌋ else ⌈q⌉

/-- Ascending sort, as pandas statistics see the values. -/
def sortValues (l : List ℚ) : List ℚ :=
  List.insertionSort (· ≤ ·) l

/-- `Series.median()` over the non-NA values: sort ascending; odd length takes
the middle element, even length averages the two middle elements; empty gives
NaN (`none`). -/
def pandasMedian (l : List ℚ) : Option ℚ :=
  if (sortValues l).length = 0 then none
  else if (sortValues l).length % 2 = 1 then (sortValues l)[(sortValues l).length / 2]?
  else
    match (sortValues l)[(sortValues l).length / 2 - 1]?, (sortValues l)[(sortValues l).length / 2]? with
    | some x, some y => some ((x + y) / 2)
    | _, _ => none

/-- The distinct values of an integer series, ascending: this is what
`Series.mode()` ranks by multiplicity. -/
def sortedUnique (l : List Int) : List Int :=
  (List.insertionSort (· ≤ ·) l).dedup

/-- `Series.mode().iloc[0]` over the non-NA values: `mode()` returns every
value of maximal multiplicity sorted ascending, so `.iloc[0]` is the smallest
value of maximal multiplicity; `none` exactly when the series is empty. -/
def pandasModeHead (l : List Int) : Option Int :=
  (sortedUnique l).argmax fun x => l.count x

/-- Sequence a list of optional cells: `some` of all values when no cell is NA,
`none` as soon as one cell is NA.  This is the success/failure behaviour of
`.astype(int)` on a column (it raises on any non-finite cell). -/
def seqOption {α : Type} : List (Option α) → Option (List α)
  | [] => some []
  | none :: _ => none
  | some a :: ts => (seqOption ts).map (a :: ·)

/-- A raw employee record as `clean` sees it: the four columns the engine
touches. -/
structure RawEmployee where
  name : Option String
  position : Option String
  start_date : RawDate
  salary : RawNum

deriving DecidableEq

/-- A cleaned employee record: the four data fields plus the per-field issue
flags and the aggregate flag, exactly the columns `clean` writes. -/
structure CleanedEmployee where
  name : String
  position : String
  start_date : Int
  salary : Int
  issue_missing_name : Bool
  issue_missing_position : Bool
  issue_missing_start_date : Bool
  issue_missing_salary : Bool
  issue_invalid_salary : Bool
  issue_invalid_start_date : Bool
  has_any_issue : Bool

deriving DecidableEq

/-- Salary lower bound of `cleaning.py` line 29. -/
def SALARY_MIN : ℚ := 60000

/-- Salary upper bound of `cleaning.py` line 29. -/
def SALARY_MAX : ℚ := 200000

/-- `date(2015,1,1)` of `cleaning.py` line 37, encoded `yyyymmdd`. -/
def DATE_MIN : Int := 20150101

/-- `date(2024,12,31)` of `cleaning.py` line 38, encoded `yyyymmdd`. -/
def DATE_MAX : Int := 20241231

/-- `pd.Timestamp("2019-01-01")` of `cleaning.py` line 43, encoded `yyyymmdd`. -/
def DEFAULT_DATE : Int := 20190101

/-- Line 29: `(out["salary"] < 60000) | (out["salary"] > 200000)` computed on
the coerced column; comparisons against NaN are `False`. -/
def issueInvalidSalary (r : RawEmployee) : Bool :=
  match toNumeric r.salary with
  | some q => decide (q < SALARY_MIN) || decide (q > SALARY_MAX)
  | none => false

/-- The salary column after line 30 (`out.loc[invalid, "salary"] = pd.NA`):
the coerced value when present and in range, NA otherwise. -/
def salaryAfterInvalid (r : RawEmployee) : Option ℚ :=
  match toNumeric r.salary with
  | some q => if q < SALARY_MIN ∨ q > SALARY_MAX then none else some q
  | none => none

/-- The non-NA salaries entering `out["salary"].median()` at line 31. -/
def validSalaries (batch : List RawEmployee) : List ℚ :=
  batch.filterMap salaryAfterInvalid

/-- Lines 36-39: the date-range check on `.dt.date`; comparisons against NaT
are `False`. -/
def issueInvalidDate (r : RawEmployee) : Bool :=
  match toDatetime r.start_date with
  | some d => decide (d < DATE_MIN) || decide (d > DATE_MAX)
  | none => false

/-- The start_date column after line 40 (`out.loc[invalid, "start_date"] = pd.NaT`). -/
def dateAfterInvalid (r : RawEmployee) : Option Int :=
  match toDatetime r.start_date with
  | some d => if d < DATE_MIN ∨ d > DATE_MAX then none else some d
  | none => none

/-- The non-NaT dates entering `out["start_date"].mode()` at line 45. -/
def validDates (batch : List RawEmployee) : List Int :=
  batch.filterMap dateAfterInvalid

/-- One row of the cleaned output, given the batch fill values: the salary fill
(line 31 `fillna(median)`) and the date fill (lines 41-46).  Returns `none`
when the row still has an NA salary after `fillna`, which is exactly when
`.astype(int)` raises. -/
def cleanRow (fillS : Option ℚ) (fillD : Int) (r : RawEmployee) : Option CleanedEmployee :=
  match (salaryAfterInvalid r).orElse (fun _ => fillS) with
  | none => none
  | some q =>
    some
      { name := r.name.getD "Unknown"
        position := pyTitle (pyStrip (r.position.getD "Unknown"))
        start_date := (dateAfterInvalid r).getD fillD
        salary := astypeInt q
        issue_missing_name := r.name.isNone
        issue_missing_position := r.position.isNone
        issue_missing_start_date := rawDateIsna r.start_date
        issue_missing_salary := rawNumIsna r.salary
        issue_invalid_salary := issueInvalidSalary r
        issue_invalid_start_date := issueInvalidDate r
        has_any_issue := r.name.isNone || r.position.isNone || rawDateIsna r.start_date ||
          rawNumIsna r.salary || issueInvalidSalary r || issueInvalidDate r }

/-- The salary fill value of line 31: `out["salary"].median()` over the
post-invalidation column. -/
def salaryFill (batch : List RawEmployee) : Option ℚ :=
  pandasMedian (validSalaries batch)

/-- The date fill value of lines 41-45: the mode of the remaining valid dates,
or `pd.Timestamp("2019-01-01")` when the column has no valid date left
(`mode()` is empty exactly when the dropna'd column is empty). -/
def dateFill (batch : List RawEmployee) : Int :=
  match pandasModeHead (validDates batch) with
  | some d => d
  | none => DEFAULT_DATE

/-- `EmployeeCleaner.clean` over a batch.  `.astype(int)` at line 31 raises
(the `Except.error` branch) exactly when a salary cell is still NA after
`fillna`, i.e. some row needs imputation and the batch has no valid salary. -/
def clean (batch : List RawEmployee) : Except String (List CleanedEmployee) :=
  match seqOption (batch.map (cleanRow (salaryFill batch) (dateFill batch))) with
  | some out => .ok out
  | none => .error "Cannot convert non-finite values (NA or inf) to integer"

/-- A raw row with an empty-string (but non-null) name and a valid salary and
date. -/
def rowEmptyName : RawEmployee :=
  ⟨some "", some "Dev", .day 20160101, .num 70000⟩

/-- A batch whose valid salaries are `[60000, 60003]` (fractional median
`60001.5`) plus one missing salary. -/
def batchFracMedian : List RawEmployee :=
  [⟨some "A", some "Dev", .day 20160101, .num 60000⟩,
   ⟨some "B", some "Dev", .day 20160101, .num 60003⟩,
   ⟨some "C", some "Dev", .day 20160101, .null⟩]

/-- The spec's median example: salaries `[70000, 80000, 500000(invalid),
missing]`. -/
def batchMedianExample : List RawEmployee :=
  [⟨some "A", some "Dev", .day 20160101, .num 70000⟩,
   ⟨some "B", some "Dev", .day 20160101, .num 80000⟩,
   ⟨some "C", some "Dev", .day 20160101, .num 500000⟩,
   ⟨some "D", some "Dev", .day 20160101, .null⟩]

/-- A batch whose valid dates are `[2020-05-05, 2020-05-05, 2016-01-01,
2016-01-01]` — a tie in which `2020-05-05` is encountered first — plus one
missing date. -/
def batchDateTie : List RawEmployee :=
  [⟨some "A", some "Dev", .day 20200505, .num 70000⟩,
   ⟨some "B", some "Dev", .day 20200505, .num 70000⟩,
   ⟨some "C", some "Dev", .day 20160101, .num 70000⟩,
   ⟨some "D", some "Dev", .day 20160101, .num 70000⟩,
   ⟨some "E", some "Dev", .null, .num 70000⟩]

/-- The spec's mode example: dates `[2016-01-01, 2016-01-01, 2020-05-05,
missing]`. -/
def batchModeExample : List RawEmployee :=
  [⟨some "A", some "Dev", .day 20160101, .num 70000⟩,
   ⟨some "B", some "Dev", .day 20160101, .num 70000⟩,
   ⟨some "C", some "Dev", .day 20200505, .num 70000⟩,
   ⟨some "D", some "Dev", .null, .num 70000⟩]

/-- A batch with one parseable salary and one unparseable (textual) salary. -/
def batchUnparseable : List RawEmployee :=
  [⟨some "A", some "Dev", .day 20160101, .num 70000⟩,
   ⟨some "B", some "Dev", .day 20160101, .txt "abc"⟩]

/-- A nonempty batch whose only salary is out of range (no valid salary). -/
def batchNoValidSalary : List RawEmployee :=
  [⟨some "A", some "Dev", .day 20160101, .num 500000⟩]

/-- A well-behaved batch used to witness the general cleaning theorems. -/
def batchWitness : List RawEmployee :=
  [⟨some "Alice", some " dev lead ", .day 20160101, .num 70000⟩,
   ⟨none, none, .day 20160101, .null⟩]

/-- Re-reading a cleaned record as a raw record (a second `clean` pass sees
the four data columns; the flag columns are recomputed and overwritten). -/
def toRaw (c : CleanedEmployee) : RawEmployee :=
  { name := some c.name
    position := some c.position
    start_date := .day c.start_date
    salary := .num (c.salary : ℚ) }

/-- The same record with every issue flag and the aggregate flag cleared. -/
def resetFlags (c : CleanedEmployee) : CleanedEmployee :=
  { c with issue_missing_name := false
           issue_missing_position := false
           issue_missing_start_date := false
           issue_missing_salary := false
           issue_invalid_salary := false
           issue_invalid_start_date := false
           has_any_issue := false }

/-- Follows the spec's words, for comparison with the code: "if that median
itself is fractional, it is rounded to the nearest integer" — round half up
(for the medians at stake, any round-to-nearest convention agrees). -/
def specRoundNearest (q : ℚ) : Int :=
  ⌊q + 1 / 2⌋

/-- Follows the spec's words, for comparison with the code: "ties broken by
first-encountered value in batch order" — the first value, in encounter
order, of maximal multiplicity. -/
def specFirstEncounteredMode (l : List Int) : Option Int :=
  l.argmax fun x => l.count x

/-- PostgreSQL INT minimum, as in db.py line 166. -/
def PG_INT_MIN : ℚ := -2147483648

/-- PostgreSQL INT maximum, as in db.py line 167. -/
def PG_INT_MAX : ℚ := 2147483647

/-- Does a (possibly NULL) numeric value fit a PostgreSQL INTEGER column? -/
def pgIntOk : Option ℚ → Bool
  | none => true
  | some q => decide (PG_INT_MIN ≤ q) && decide (q ≤ PG_INT_MAX)

/-- A stored row of `departments`. -/
structure DeptRow where
  department_id : Int
  department_name : String
  location : String
  budget : Int

deriving DecidableEq

/-- A stored row of `employees`.  Numeric columns hold the numeric value that
was transmitted (psycopg2 sends the pandas float); only `employee_id` is
non-null (PRIMARY KEY). -/
structure EmpRow where
  employee_id : ℚ
  name : Option String
  position : Option String
  start_date : Option Int
  salary : Option ℚ
  department_id : Option ℚ
  is_dirty : Bool

deriving DecidableEq

/-- A stored row of `projects`. -/
structure ProjRow where
  project_id : Int
  project_name : String
  project_type : String
  start_date : Int
  end_date : Option Int
  budget : ℚ

deriving DecidableEq

/-- A stored row of `employee_projects`. -/
structure AsgRow where
  employee_id : ℚ
  project_id : ℚ
  role_on_project : Option String

deriving DecidableEq

/-- The database state: the four tables. -/
structure DB where
  departments : List DeptRow
  employees : List EmpRow
  projects : List ProjRow
  employee_projects : List AsgRow

deriving DecidableEq

/-- The empty database (right after `create_tables` on a fresh instance). -/
def DB.empty : DB :=
  { departments := [], employees := [], projects := [], employee_projects := [] }

/-- A psycopg2 connection: the durable (committed) state and the state the
open transaction sees (pending).  `commit` publishes pending; `rollback`
resets pending to committed. -/
structure Conn where
  committed : DB
  pending : DB

deriving DecidableEq

/-- The parameter tuple of the employees INSERT (db.py lines 187-191), after
the dataframe preparation. -/
structure EmpTuple where
  employee_id : Option ℚ
  name : Option String
  position : Option String
  start_date : Option Int
  salary : Option ℚ
  department_id : Option ℚ
  is_dirty : Bool

deriving DecidableEq

/-- `INSERT INTO employees ... ON CONFLICT (employee_id) DO NOTHING` executed
against a database state: fails on an out-of-range INTEGER value, a NULL
primary key, or a dangling department reference; an existing `employee_id` is
silently skipped. -/
def execInsertEmployee (db : DB) (t : EmpTuple) : Option DB :=
  if ¬(pgIntOk t.employee_id ∧ pgIntOk t.salary ∧ pgIntOk t.department_id) then none
  else
    match t.employee_id with
    | none => none
    | some k =>
      if db.employees.any (fun r => r.employee_id = k) then some db
      else
        match t.department_id with
        | none =>
          some { db with employees := db.employees ++
            [⟨k, t.name, t.position, t.start_date, t.salary, none, t.is_dirty⟩] }
        | some d =>
          if db.departments.any (fun r => (r.department_id : ℚ) = d) then
            some { db with employees := db.employees ++
              [⟨k, t.name, t.position, t.start_date, t.salary, some d, t.is_dirty⟩] }
          else none

/-- `INSERT INTO departments (department_name, location, budget) VALUES ...
ON CONFLICT (department_name) DO UPDATE SET location = EXCLUDED.location,
budget = EXCLUDED.budget` (db.py lines 132-138).  `seed_departments` passes
its tuples through without any numeric preparation. -/
def execInsertDept (db : DB) (t : String × String × Int) : Option DB :=
  if ¬ pgIntOk (some (t.2.2 : ℚ)) then none
  else if db.departments.any (fun r => r.department_name = t.1) then
    some { db with departments := db.departments.map fun r =>
      if r.department_name = t.1 then { r with location := t.2.1, budget := t.2.2 } else r }
  else
    some { db with departments := db.departments ++
      [⟨(db.departments.length : Int) + 1, t.1, t.2.1, t.2.2⟩] }

/-- The parameter tuple of the projects INSERT (db.py lines 248-256), after
the dataframe preparation. -/
structure ProjTuple where
  project_name : Option String
  project_type : Option String
  start_date : Option Int
  end_date : Option Int
  budget : Option ℚ

deriving DecidableEq

/-- `INSERT INTO projects ... ON CONFLICT (project_name) DO UPDATE SET
project_type = ..., start_date = ..., end_date = ..., budget = ...`: fails on
an out-of-range INTEGER budget or a NULL in a NOT NULL column
(`project_name`, `project_type`, `start_date`, `budget`); an existing
`project_name` has its non-key columns overwritten. -/
def execInsertProject (db : DB) (t : ProjTuple) : Option DB :=
  if ¬ pgIntOk t.budget then none
  else
    match t.project_name, t.project_type, t.start_date, t.budget with
    | some n, some ty, some sd, some b =>
      if db.projects.any (fun r => r.project_name = n) then
        some { db with projects := db.projects.map fun r =>
          if r.project_name = n then
            { r with project_type := ty, start_date := sd, end_date := t.end_date, budget := b }
          else r }
      else
        some { db with projects := db.projects ++
          [⟨(db.projects.length : Int) + 1, n, ty, sd, t.end_date, b⟩] }
    | _, _, _, _ => none

/-- The parameter tuple of the employee_projects INSERT (db.py lines 292-296),
after the dataframe preparation. -/
structure AsgTuple where
  employee_id : Option ℚ
  project_id : Option ℚ
  role_on_project : Option String

deriving DecidableEq

/-- `INSERT INTO employee_projects ... ON CONFLICT (employee_id, project_id)
DO NOTHING`: fails on out-of-range INTEGER values, a NULL component of the
composite primary key, or a dangling reference; an existing composite key is
silently skipped. -/
def execInsertAsg (db : DB) (t : AsgTuple) : Option DB :=
  if ¬(pgIntOk t.employee_id ∧ pgIntOk t.project_id) then none
  else
    match t.employee_id, t.project_id with
    | some e, some p =>
      if db.employee_projects.any (fun r => r.employee_id = e ∧ r.project_id = p) then some db
      else if db.employees.any (fun r => r.employee_id = e) ∧
          db.projects.any (fun r => (r.project_id : ℚ) = p) then
        some { db with employee_projects := db.employee_projects ++ [⟨e, p, t.role_on_project⟩] }
      else none
    | _, _ => none

/-- A raw employees dataframe row as `insert_employees_df` receives it (the
seven required columns). -/
structure EmpIn where
  employee_id : RawNum
  name : Option String
  position : Option String
  start_date : RawDate
  salary : RawNum
  department_id : RawNum
  is_dirty : Bool

deriving DecidableEq

/-- The clamp of db.py lines 176-179: values above `PG_INT_MAX` are set to
`PG_INT_MAX`, then values below `PG_INT_MIN` are set to `PG_INT_MIN`;
comparisons against NaN are `False`, so NA passes through. -/
def pgClamp (q : ℚ) : ℚ :=
  if q > PG_INT_MAX then PG_INT_MAX
  else if q < PG_INT_MIN then PG_INT_MIN
  else q

/-- The dataframe preparation of `insert_employees_df` (db.py lines 169-193):
`pd.to_numeric` on `employee_id`, `salary`, `department_id`; clamp those three
columns to the INT range; `pd.to_datetime(...).dt.date` on `start_date`;
NA becomes None. -/
def prepEmp (r : EmpIn) : EmpTuple :=
  { employee_id := (toNumeric r.employee_id).map pgClamp
    name := r.name
    position := r.position
    start_date := toDatetime r.start_date
    salary := (toNumeric r.salary).map pgClamp
    department_id := (toNumeric r.department_id).map pgClamp
    is_dirty := r.is_dirty }

/-- A raw projects dataframe row as `insert_projects_df` receives it. -/
structure ProjIn where
  project_name : Option String
  project_type : Option String
  start_date : RawDate
  end_date : RawDate
  budget : RawNum

deriving DecidableEq

/-- The dataframe preparation of `insert_projects_df` (db.py lines 242-246):
`pd.to_numeric` on `budget` — with no clamp — and `pd.to_datetime(...).dt.date`
on the date columns; NA becomes None. -/
def prepProj (r : ProjIn) : ProjTuple :=
  { project_name := r.project_name
    project_type := r.project_type
    start_date := toDatetime r.start_date
    end_date := toDatetime r.end_date
    budget := toNumeric r.budget }

/-- A raw assignments dataframe row as `insert_employee_projects_df` receives
it. -/
structure AsgIn where
  employee_id : RawNum
  project_id : RawNum
  role_on_project : Option String

deriving DecidableEq

/-- The dataframe preparation of `insert_employee_projects_df` (db.py lines
287-290): `pd.to_numeric` on the two id columns — with no clamp; NA becomes
None. -/
def prepAsg (r : AsgIn) : AsgTuple :=
  { employee_id := toNumeric r.employee_id
    project_id := toNumeric r.project_id
    role_on_project := r.role_on_project }

/-- `cur.executemany` over employee tuples: execute each statement in turn
inside the open transaction; return the reached state and whether every
statement succeeded (on failure the state is the one before the failing
statement, and the caller must roll back). -/
def runManyEmp (db : DB) : List EmpTuple → DB × Bool
  | [] => (db, true)
  | t :: ts =>
    match execInsertEmployee db t with
    | some db2 => runManyEmp db2 ts
    | none => (db, false)

/-- `cur.executemany` over department tuples. -/
def runManyDept (db : DB) : List (String × String × Int) → DB × Bool
  | [] => (db, true)
  | t :: ts =>
    match execInsertDept db t with
    | some db2 => runManyDept db2 ts
    | none => (db, false)

/-- `cur.executemany` over project tuples. -/
def runManyProj (db : DB) : List ProjTuple → DB × Bool
  | [] => (db, true)
  | t :: ts =>
    match execInsertProject db t with
    | some db2 => runManyProj db2 ts
    | none => (db, false)

/-- The outcome `insert_employees_df` reports when it raises: either the
row-by-row replay found the first failing row and prints its batch index and
value tuple before re-raising (db.py lines 203-210), or the replay finished
and the original executemany error is re-raised (line 211). -/
inductive EmpLoadErr where
  | badRow (i : Nat) (t : EmpTuple) : EmpLoadErr
  | origErr : EmpLoadErr

deriving DecidableEq

/-- The row-by-row replay of db.py lines 203-210: `cur.execute` per row inside
the single transaction opened after the rollback; the first failing row
triggers a rollback and the exception propagates with the row reported; if
every row succeeds the original error is re-raised (line 211) with the
replayed rows left uncommitted in the pending transaction. -/
def rowByRowEmp (orig : DB) (pending : DB) : List EmpTuple → Conn × EmpLoadErr
  | [] => (⟨orig, pending⟩, .origErr)
  | t :: ts =>
    match execInsertEmployee pending t with
    | some p2 =>
      match rowByRowEmp orig p2 ts with
      | (c, .badRow j u) => (c, .badRow (j + 1) u)
      | (c, .origErr) => (c, .origErr)
    | none => (⟨orig, orig⟩, .badRow 0 t)

/-- `DatabaseClient.insert_employees_df` (db.py lines 152-213) started on a
connection whose pending state equals the committed state `db`: prepare the
dataframe, attempt the whole batch with `executemany`, commit on success;
on failure roll back and replay row by row, reporting the first failing row;
the call never commits in the failure path. -/
def insertEmployeesDf (db : DB) (rows : List EmpIn) : Conn × Option EmpLoadErr :=
  match runManyEmp db (rows.map prepEmp) with
  | (p, true) => (⟨p, p⟩, none)
  | (_, false) =>
    match rowByRowEmp db db (rows.map prepEmp) with
    | (c, e) => (c, some e)

/-- `DatabaseClient.seed_departments` (db.py lines 128-141): `executemany`
then `commit`; there is no try/except, so a failure leaves the partial
transaction pending (aborted) and the exception propagates. -/
def seedDepartments (db : DB) (rows : List (String × String × Int)) : Conn × Option Unit :=
  match runManyDept db rows with
  | (p, true) => (⟨p, p⟩, none)
  | (p, false) => (⟨db, p⟩, some ())

/-- `DatabaseClient.insert_projects_df` (db.py lines 232-266): prepare,
`executemany` inside try; on failure roll back and re-raise with no
row-by-row replay; commit on success. -/
def insertProjectsDf (db : DB) (rows : List ProjIn) : Conn × Option Unit :=
  match runManyProj db (rows.map prepProj) with
  | (p, true) => (⟨p, p⟩, none)
  | (_, false) => (⟨db, db⟩, some ())

/-- The cleaned output of `batchMedianExample`. -/
def outMedianExample : List CleanedEmployee :=
  [⟨"A", "Dev", 20160101, 70000, false, false, false, false, false, false, false⟩,
   ⟨"B", "Dev", 20160101, 80000, false, false, false, false, false, false, false⟩,
   ⟨"C", "Dev", 20160101, 75000, false, false, false, false, true, false, true⟩,
   ⟨"D", "Dev", 20160101, 75000, false, false, false, true, false, false, true⟩]

/-- The cleaned output of `batchModeExample`. -/
def outModeExample : List CleanedEmployee :=
  [⟨"A", "Dev", 20160101, 70000, false, false, false, false, false, false, false⟩,
   ⟨"B", "Dev", 20160101, 70000, false, false, false, false, false, false, false⟩,
   ⟨"C", "Dev", 20200505, 70000, false, false, false, false, false, false, false⟩,
   ⟨"D", "Dev", 20160101, 70000, false, false, true, false, false, false, true⟩]

/-- The cleaned output of `batchWitness`. -/
def outWitness : List CleanedEmployee :=
  [⟨"Alice", "Dev Lead", 20160101, 70000, false, false, false, false, false, false, false⟩,
   ⟨"Unknown", "Unknown", 20160101, 70000, true, true, false, true, false, false, true⟩]

/-- A well-formed employee dataframe row with the given (literal) id. -/
def empRowOk (n : ℚ) : EmpIn :=
  ⟨.num n, some "E", some "Dev", .day 20200101, .num 70000, .null, false⟩

/-- A malformed employee dataframe row: NULL `employee_id` violates the
non-nullable primary key column. -/
def empRowBad : EmpIn :=
  ⟨.null, some "X", some "Dev", .day 20200101, .num 70000, .null, false⟩

/-- The prepared tuple of `empRowBad`. -/
def empTupleBad : EmpTuple :=
  ⟨none, some "X", some "Dev", some 20200101, some 70000, none, false⟩

/-- A batch of 10 employee rows whose row at index 5 violates a non-nullable
column. -/
def batchTenRows : List EmpIn :=
  [empRowOk 1, empRowOk 2, empRowOk 3, empRowOk 4, empRowOk 5, empRowBad,
   empRowOk 7, empRowOk 8, empRowOk 9, empRowOk 10]

/-- A projects dataframe row whose budget exceeds the PostgreSQL INTEGER
maximum. -/
def projRowBig : ProjIn :=
  ⟨some "P", some "T", .day 20200101, .null, .num 3000000000⟩

/-- An employees dataframe row whose `employee_id` exceeds the PostgreSQL
INTEGER maximum. -/
def bigEmpRow : EmpIn :=
  ⟨.num 3000000000, some "E", some "Dev", .day 20200101, .num 70000, .null, false⟩

/-- A database holding one department row. -/
def dbOneDept : DB :=
  { departments := [⟨1, "R", "X", 100⟩], employees := [], projects := [],
    employee_projects := [] }

/-- A database holding one employee row with id 7. -/
def dbOneEmp : DB :=
  { departments := [], employees := [⟨7, some "A", some "Dev", some 20200101, some 70000,
      none, false⟩], projects := [], employee_projects := [] }

/-- A database holding one project row named "P". -/
def dbOneProj : DB :=
  { departments := [], employees := [], projects := [⟨1, "P", "T", 20200101, none, 500⟩],
    employee_projects := [] }

/-- A database holding employee 7, project 1 and their assignment. -/
def dbOneAsg : DB :=
  { departments := []
    employees := [⟨7, some "A", some "Dev", some 20200101, some 70000, none, false⟩]
    projects := [⟨1, "P", "T", 20200101, none, 500⟩]
    employee_projects := [⟨7, 1, some "Lead"⟩] }

/-! ## Lemmas and claim theorems -/

theorem char_toNat_ofNat_valid {n : Nat} (h : n.isValidChar) : (Char.ofNat n).toNat = n := by
  simp only [Char.ofNat, dif_pos h, Char.ofNatAux, Char.toNat]
  rfl

theorem isUpper_iff {c : Char} : c.isUpper = true ↔ 65 ≤ c.toNat ∧ c.toNat ≤ 90 := by
  simp only [Char.isUpper, Bool.and_eq_true, decide_eq_true_eq, ge_iff_le, UInt32.le_def,
    BitVec.le_def]
  exact Iff.rfl

theorem isLower_iff {c : Char} : c.isLower = true ↔ 97 ≤ c.toNat ∧ c.toNat ≤ 122 := by
  simp only [Char.isLower, Bool.and_eq_true, decide_eq_true_eq, ge_iff_le, UInt32.le_def,
    BitVec.le_def]
  exact Iff.rfl

theorem isAlpha_iff {c : Char} :
    c.isAlpha = true ↔ (65 ≤ c.toNat ∧ c.toNat ≤ 90) ∨ (97 ≤ c.toNat ∧ c.toNat ≤ 122) := by
  simp only [Char.isAlpha, Bool.or_eq_true, isUpper_iff, isLower_iff]

theorem char_eq_iff_toNat {c d : Char} : c = d ↔ c.toNat = d.toNat := by
  constructor
  · rintro rfl
    rfl
  · intro h
    exact Char.ext (UInt32.ext h)

theorem isWhitespace_iff {c : Char} :
    c.isWhitespace = true ↔ c.toNat = 32 ∨ c.toNat = 9 ∨ c.toNat = 13 ∨ c.toNat = 10 := by
  simp only [Char.isWhitespace, Bool.or_eq_true, decide_eq_true_eq]
  rw [char_eq_iff_toNat, char_eq_iff_toNat, char_eq_iff_toNat, char_eq_iff_toNat]
  show ((c.toNat = 32 ∨ c.toNat = 9) ∨ c.toNat = 13) ∨ c.toNat = 10 ↔ _
  tauto

theorem toUpper_toNat_of_lower {c : Char} (h : 97 ≤ c.toNat ∧ c.toNat ≤ 122) :
    c.toUpper.toNat = c.toNat - 32 := by
  rw [show c.toUpper = Char.ofNat (c.toNat - 32) from by simp only [Char.toUpper, if_pos h]]
  exact char_toNat_ofNat_valid (Or.inl (by omega))

theorem toUpper_eq_self {c : Char} (h : ¬(97 ≤ c.toNat ∧ c.toNat ≤ 122)) : c.toUpper = c := by
  simp only [Char.toUpper, if_neg h]

theorem toLower_toNat_of_upper {c : Char} (h : 65 ≤ c.toNat ∧ c.toNat ≤ 90) :
    c.toLower.toNat = c.toNat + 32 := by
  rw [show c.toLower = Char.ofNat (c.toNat + 32) from by simp only [Char.toLower, if_pos h]]
  exact char_toNat_ofNat_valid (Or.inl (by omega))

theorem toLower_eq_self {c : Char} (h : ¬(65 ≤ c.toNat ∧ c.toNat ≤ 90)) : c.toLower = c := by
  simp only [Char.toLower, if_neg h]

theorem isAlpha_toUpper (c : Char) : c.toUpper.isAlpha = c.isAlpha := by
  by_cases h : 97 ≤ c.toNat ∧ c.toNat ≤ 122
  · have h1 := toUpper_toNat_of_lower h
    have h2 : c.isAlpha = true := isAlpha_iff.mpr (Or.inr h)
    rw [h2]
    exact isAlpha_iff.mpr (Or.inl (by omega))
  · rw [toUpper_eq_self h]

theorem isAlpha_toLower (c : Char) : c.toLower.isAlpha = c.isAlpha := by
  by_cases h : 65 ≤ c.toNat ∧ c.toNat ≤ 90
  · have h1 := toLower_toNat_of_upper h
    have h2 : c.isAlpha = true := isAlpha_iff.mpr (Or.inl h)
    rw [h2]
    exact isAlpha_iff.mpr (Or.inr (by omega))
  · rw [toLower_eq_self h]

theorem toUpper_toUpper (c : Char) : c.toUpper.toUpper = c.toUpper := by
  by_cases h : 97 ≤ c.toNat ∧ c.toNat ≤ 122
  · have h1 := toUpper_toNat_of_lower h
    exact toUpper_eq_self (by omega)
  · rw [toUpper_eq_self h, toUpper_eq_self h]

theorem toLower_toLower (c : Char) : c.toLower.toLower = c.toLower := by
  by_cases h : 65 ≤ c.toNat ∧ c.toNat ≤ 90
  · have h1 := toLower_toNat_of_upper h
    exact toLower_eq_self (by omega)
  · rw [toLower_eq_self h, toLower_eq_self h]

theorem not_isWhitespace_of_isAlpha {c : Char} (h : c.isAlpha = true) :
    c.isWhitespace = false := by
  rcases isAlpha_iff.mp h with h1 | h1 <;>
  · rw [Bool.eq_false_iff]
    intro hw
    rcases isWhitespace_iff.mp hw with h2 | h2 | h2 | h2 <;> omega

theorem isWhitespace_toUpper (c : Char) : c.toUpper.isWhitespace = c.isWhitespace := by
  by_cases h : c.isAlpha = true
  · rw [not_isWhitespace_of_isAlpha h,
      not_isWhitespace_of_isAlpha (by rw [isAlpha_toUpper]; exact h)]
  · have h2 : ¬(97 ≤ c.toNat ∧ c.toNat ≤ 122) := fun hc => h (isAlpha_iff.mpr (Or.inr hc))
    rw [toUpper_eq_self h2]

theorem isWhitespace_toLower (c : Char) : c.toLower.isWhitespace = c.isWhitespace := by
  by_cases h : c.isAlpha = true
  · rw [not_isWhitespace_of_isAlpha h,
      not_isWhitespace_of_isAlpha (by rw [isAlpha_toLower]; exact h)]
  · have h2 : ¬(65 ≤ c.toNat ∧ c.toNat ≤ 90) := fun hc => h (isAlpha_iff.mpr (Or.inl hc))
    rw [toLower_eq_self h2]

theorem isAlpha_titleChar (b : Bool) (c : Char) : (titleChar b c).isAlpha = c.isAlpha := by
  unfold titleChar
  split
  · split
    · exact isAlpha_toLower c
    · exact isAlpha_toUpper c
  · rfl

theorem isWhitespace_titleChar (b : Bool) (c : Char) :
    (titleChar b c).isWhitespace = c.isWhitespace := by
  unfold titleChar
  split
  · split
    · exact isWhitespace_toLower c
    · exact isWhitespace_toUpper c
  · rfl

theorem titleChar_not_alpha {b : Bool} {c : Char} (h : c.isAlpha = false) : titleChar b c = c := by
  simp [titleChar, h]

theorem titleChar_alpha_prev {c : Char} (h : c.isAlpha = true) :
    titleChar true c = c.toLower := by
  simp [titleChar, h]

theorem titleChar_alpha_fresh {c : Char} (h : c.isAlpha = true) :
    titleChar false c = c.toUpper := by
  simp [titleChar, h]

theorem titleChar_titleChar (b : Bool) (c : Char) :
    titleChar b (titleChar b c) = titleChar b c := by
  by_cases h : c.isAlpha = true
  · cases b with
    | true =>
      rw [titleChar_alpha_prev h, titleChar_alpha_prev (by rw [isAlpha_toLower]; exact h)]
      exact toLower_toLower c
    | false =>
      rw [titleChar_alpha_fresh h, titleChar_alpha_fresh (by rw [isAlpha_toUpper]; exact h)]
      exact toUpper_toUpper c
  · have h2 : c.isAlpha = false := by rwa [Bool.not_eq_true] at h
    rw [titleChar_not_alpha h2]
    exact titleChar_not_alpha h2

theorem pyTitleAux_idem (l : List Char) :
    ∀ b, pyTitleAux b (pyTitleAux b l) = pyTitleAux b l := by
  induction l with
  | nil =>
    intro b
    rfl
  | cons c cs ih =>
    intro b
    simp only [pyTitleAux]
    rw [titleChar_titleChar, isAlpha_titleChar, ih c.isAlpha]

theorem map_isWhitespace_pyTitleAux (l : List Char) :
    ∀ b, (pyTitleAux b l).map Char.isWhitespace = l.map Char.isWhitespace := by
  induction l with
  | nil =>
    intro b
    rfl
  | cons c cs ih =>
    intro b
    simp only [pyTitleAux, List.map_cons]
    rw [isWhitespace_titleChar, ih c.isAlpha]

theorem dropWhile_eq_self_of_length {α : Type} (p : α → Bool) :
    ∀ l : List α, (l.dropWhile p).length = l.length → l.dropWhile p = l := by
  intro l h
  induction l with
  | nil => rfl
  | cons c cs ih =>
    by_cases hp : p c = true
    · rw [List.dropWhile_cons_of_pos hp] at h ⊢
      have := (List.dropWhile_sublist (l := cs) p).length_le
      simp at h
      omega
    · rw [List.dropWhile_cons_of_neg (by simp [hp])]

theorem length_dropWhile_congr {α β : Type} (p : α → Bool) (q : β → Bool) :
    ∀ (l₁ : List α) (l₂ : List β), l₁.map p = l₂.map q →
      (l₁.dropWhile p).length = (l₂.dropWhile q).length := by
  intro l₁
  induction l₁ with
  | nil =>
    intro l₂ h
    cases l₂ with
    | nil => rfl
    | cons d ds => simp at h
  | cons c cs ih =>
    intro l₂ h
    cases l₂ with
    | nil => simp at h
    | cons d ds =>
      simp only [List.map_cons, List.cons.injEq] at h
      by_cases hp : p c = true
      · rw [List.dropWhile_cons_of_pos hp, List.dropWhile_cons_of_pos (by rw [← h.1]; exact hp)]
        exact ih ds h.2
      · rw [List.dropWhile_cons_of_neg (by simp [hp]),
          List.dropWhile_cons_of_neg (by simp [← h.1, hp])]
        have := congrArg List.length h.2
        simp only [List.length_map] at this
        simp only [List.length_cons]
        omega

theorem dropWhile_idem {α : Type} (p : α → Bool) :
    ∀ l : List α, (l.dropWhile p).dropWhile p = l.dropWhile p := by
  intro l
  induction l with
  | nil => rfl
  | cons c cs ih =>
    by_cases hp : p c = true
    · rw [List.dropWhile_cons_of_pos hp, ih]
    · rw [List.dropWhile_cons_of_neg (by simp [hp]),
        List.dropWhile_cons_of_neg (by simp [hp])]

theorem dropWhile_eq_self_of_head {α : Type} (p : α → Bool) (l : List α)
    (h : l = [] ∨ ∃ c cs, l = c :: cs ∧ p c = false) : l.dropWhile p = l := by
  rcases h with rfl | ⟨c, cs, rfl, hc⟩
  · rfl
  · rw [List.dropWhile_cons_of_neg (by simp [hc])]

theorem false_of_dropWhile_cons {α : Type} (p : α → Bool) :
    ∀ (l : List α) (c : α) (cs : List α), l.dropWhile p = c :: cs → p c = false := by
  intro l
  induction l with
  | nil =>
    intro c cs h
    simp at h
  | cons x xs ih =>
    intro c cs h
    by_cases hp : p x = true
    · rw [List.dropWhile_cons_of_pos hp] at h
      exact ih c cs h
    · rw [List.dropWhile_cons_of_neg (by simp [hp])] at h
      injection h with h1 h2
      rw [h1] at hp
      simpa using hp

theorem stripAux_idem (l : List Char) : stripAux (stripAux l) = stripAux l := by
  set a := l.dropWhile Char.isWhitespace with ha
  set s := stripAux l with hs
  have hsrev : s.reverse = a.reverse.dropWhile Char.isWhitespace := by
    rw [hs, stripAux, List.reverse_reverse]
  have h2 : s.reverse.dropWhile Char.isWhitespace = s.reverse := by
    rw [hsrev]
    exact dropWhile_idem _ _
  have h1 : s.dropWhile Char.isWhitespace = s := by
    apply dropWhile_eq_self_of_head
    cases hcase : s with
    | nil => exact Or.inl rfl
    | cons c cs =>
      right
      refine ⟨c, cs, rfl, ?_⟩
      have hpre : a = s ++ (a.reverse.takeWhile Char.isWhitespace).reverse := by
        have h3 := congrArg List.reverse
          (List.takeWhile_append_dropWhile Char.isWhitespace a.reverse)
        rw [List.reverse_append, ← hsrev] at h3
        simp only [List.reverse_reverse] at h3
        exact h3.symm
      obtain ⟨t, hpre2⟩ : ∃ t, a = s ++ t := ⟨_, hpre⟩
      have hcons : a = c :: (cs ++ t) := by
        rw [hpre2, hcase]
        rfl
      exact false_of_dropWhile_cons Char.isWhitespace l c _ (by rw [← ha]; exact hcons)
  rw [hs, stripAux, h1, h2, List.reverse_reverse]

theorem map_ws_dropWhile_self {t l : List Char}
    (h : t.map Char.isWhitespace = l.map Char.isWhitespace)
    (hl : l.dropWhile Char.isWhitespace = l) :
    t.dropWhile Char.isWhitespace = t := by
  apply dropWhile_eq_self_of_length
  rw [length_dropWhile_congr _ _ t l h, hl]
  have := congrArg List.length h
  simp only [List.length_map] at this
  omega

theorem stripAux_pyTitleAux {l : List Char} (b : Bool) (h : stripAux l = l) :
    stripAux (pyTitleAux b l) = pyTitleAux b l := by
  have hmap := map_isWhitespace_pyTitleAux l b
  have hl1 : l.dropWhile Char.isWhitespace = l := by
    have hle1 := (List.dropWhile_sublist (l := l) Char.isWhitespace).length_le
    apply dropWhile_eq_self_of_length
    have hse : stripAux l = ((l.dropWhile Char.isWhitespace).reverse.dropWhile
        Char.isWhitespace).reverse := rfl
    have hle2 := (List.dropWhile_sublist (l := (l.dropWhile Char.isWhitespace).reverse)
      Char.isWhitespace).length_le
    have hlen := congrArg List.length h
    rw [hse] at hlen
    simp only [List.length_reverse] at hlen hle2
    omega
  have hl2 : l.reverse.dropWhile Char.isWhitespace = l.reverse := by
    have hb : stripAux l = (l.reverse.dropWhile Char.isWhitespace).reverse := by
      rw [stripAux, hl1]
    apply dropWhile_eq_self_of_length
    have hlen := congrArg List.length (hb.symm.trans h)
    simp only [List.length_reverse] at hlen ⊢
    omega
  have ht1 : (pyTitleAux b l).dropWhile Char.isWhitespace = pyTitleAux b l :=
    map_ws_dropWhile_self hmap hl1
  have ht2 : (pyTitleAux b l).reverse.dropWhile Char.isWhitespace = (pyTitleAux b l).reverse := by
    apply map_ws_dropWhile_self (l := l.reverse) _ hl2
    rw [List.map_reverse, List.map_reverse, hmap]
  rw [stripAux, ht1, ht2, List.reverse_reverse]

/-- Normalizing a position string (`.str.strip().str.title()`, line 49 of
`cleaning.py`) is idempotent: applying it to its own output changes nothing. -/
theorem title_strip_idem (s : String) :
    pyTitle (pyStrip (pyTitle (pyStrip s))) = pyTitle (pyStrip s) := by
  have h1 := stripAux_idem s.data
  have h2 := stripAux_pyTitleAux false h1
  have h3 : pyTitleAux false (stripAux (pyTitleAux false (stripAux s.data)))
      = pyTitleAux false (stripAux s.data) := by
    rw [h2]
    exact pyTitleAux_idem _ false
  exact congrArg String.mk h3

theorem length_sortValues (l : List ℚ) : (sortValues l).length = l.length :=
  (List.perm_insertionSort (· ≤ ·) l).length_eq

theorem mem_sortValues {l : List ℚ} {q : ℚ} : q ∈ sortValues l ↔ q ∈ l :=
  List.mem_insertionSort (· ≤ ·)

theorem pandasMedian_isSome {l : List ℚ} (h : l ≠ []) : ∃ m, pandasMedian l = some m := by
  unfold pandasMedian
  have hlen := length_sortValues l
  have hne : (sortValues l).length ≠ 0 := by
    rw [hlen]
    exact fun h0 => h (List.length_eq_zero.mp h0)
  rw [if_neg hne]
  by_cases hodd : (sortValues l).length % 2 = 1
  · rw [if_pos hodd]
    have hlt : (sortValues l).length / 2 < (sortValues l).length :=
      Nat.div_lt_self (Nat.pos_of_ne_zero hne) one_lt_two
    exact ⟨_, List.getElem?_eq_getElem hlt⟩
  · rw [if_neg hodd]
    have hge : 2 ≤ (sortValues l).length := by omega
    have hi1 : (sortValues l).length / 2 - 1 < (sortValues l).length := by omega
    have hi2 : (sortValues l).length / 2 < (sortValues l).length := by omega
    rw [List.getElem?_eq_getElem hi1, List.getElem?_eq_getElem hi2]
    exact ⟨_, rfl⟩

theorem pandasMedian_bounds {l : List ℚ} {a b m : ℚ}
    (hb : ∀ q ∈ l, a ≤ q ∧ q ≤ b) (hm : pandasMedian l = some m) : a ≤ m ∧ m ≤ b := by
  have hmem : ∀ q ∈ sortValues l, a ≤ q ∧ q ≤ b := fun q hq => hb q (mem_sortValues.mp hq)
  unfold pandasMedian at hm
  split at hm
  · simp at hm
  · split at hm
    · rcases List.getElem?_eq_some_iff.mp hm with ⟨hlt, hv⟩
      have hx := hmem _ (List.getElem_mem hlt)
      rwa [hv] at hx
    · rcases h1 : (sortValues l)[(sortValues l).length / 2 - 1]? with _ | x
      · rw [h1] at hm
        simp at hm
      · rcases h2 : (sortValues l)[(sortValues l).length / 2]? with _ | y
        · rw [h1, h2] at hm
          simp at hm
        · rw [h1, h2] at hm
          simp only [Option.some.injEq] at hm
          rcases List.getElem?_eq_some_iff.mp h1 with ⟨hlt1, hv1⟩
          rcases List.getElem?_eq_some_iff.mp h2 with ⟨hlt2, hv2⟩
          have hx := hmem _ (List.getElem_mem hlt1)
          have hy := hmem _ (List.getElem_mem hlt2)
          rw [hv1] at hx
          rw [hv2] at hy
          rw [← hm]
          constructor
          · linarith [hx.1, hy.1]
          · linarith [hx.2, hy.2]

theorem mem_sortedUnique {l : List Int} {x : Int} : x ∈ sortedUnique l ↔ x ∈ l := by
  rw [sortedUnique, List.mem_dedup, List.mem_insertionSort]

theorem sortedUnique_sorted (l : List Int) : List.Sorted (· ≤ ·) (sortedUnique l) :=
  List.Pairwise.sublist (List.dedup_sublist _) (List.sorted_insertionSort (· ≤ ·) l)

theorem sortedUnique_nodup (l : List Int) : (sortedUnique l).Nodup :=
  List.nodup_dedup _

theorem sortedUnique_le_of_indexOf_le {l : List Int} {x y : Int}
    (hx : x ∈ sortedUnique l) (hy : y ∈ sortedUnique l)
    (h : (sortedUnique l).indexOf x ≤ (sortedUnique l).indexOf y) : x ≤ y := by
  rcases Nat.lt_or_ge ((sortedUnique l).indexOf x) ((sortedUnique l).indexOf y) with hlt | hge
  · have hx2 := List.indexOf_lt_length.mpr hx
    have hy2 := List.indexOf_lt_length.mpr hy
    have := (sortedUnique_sorted l).rel_get_of_lt
      (a := ⟨(sortedUnique l).indexOf x, hx2⟩) (b := ⟨(sortedUnique l).indexOf y, hy2⟩) hlt
    rwa [List.indexOf_get, List.indexOf_get] at this
  · have heq : (sortedUnique l).indexOf x = (sortedUnique l).indexOf y := by omega
    have := (List.indexOf_inj hx hy).mp heq
    omega

theorem pandasModeHead_isSome {l : List Int} (h : l ≠ []) : ∃ m, pandasModeHead l = some m := by
  cases hm : pandasModeHead l with
  | some m => exact ⟨m, rfl⟩
  | none =>
    rw [pandasModeHead, List.argmax_eq_none, sortedUnique, List.dedup_eq_nil] at hm
    have := (List.perm_insertionSort (· ≤ ·) l).length_eq
    rw [hm] at this
    exact absurd (List.length_eq_zero.mp this.symm) h

theorem pandasModeHead_spec {l : List Int} {m : Int} (hm : pandasModeHead l = some m) :
    m ∈ l ∧ (∀ x ∈ l, l.count x ≤ l.count m) ∧ (∀ x ∈ l, l.count x = l.count m → m ≤ x) := by
  have hm2 : m ∈ (sortedUnique l).argmax fun x => l.count x := Option.mem_def.mpr hm
  have hmem : m ∈ sortedUnique l := List.argmax_mem hm2
  refine ⟨mem_sortedUnique.mp hmem, ?_, ?_⟩
  · intro x hx
    exact List.le_of_mem_argmax (mem_sortedUnique.mpr hx) hm2
  · intro x hx hcount
    have hxs : x ∈ sortedUnique l := mem_sortedUnique.mpr hx
    have hidx := List.index_of_argmax hm2 hxs (le_of_eq hcount.symm)
    exact sortedUnique_le_of_indexOf_le hmem hxs hidx

theorem astypeInt_intCast (n : Int) : astypeInt (n : ℚ) = n := by
  unfold astypeInt
  split
  · exact Int.floor_intCast n
  · exact Int.ceil_intCast n

theorem astypeInt_bounds {a b : Int} {q : ℚ} (ha : 0 ≤ (a : ℚ)) (h1 : (a : ℚ) ≤ q)
    (h2 : q ≤ (b : ℚ)) : a ≤ astypeInt q ∧ astypeInt q ≤ b := by
  have h0 : 0 ≤ q := le_trans ha h1
  unfold astypeInt
  rw [if_pos h0]
  constructor
  · exact Int.le_floor.mpr h1
  · have := Int.floor_le_floor h2
    rwa [Int.floor_intCast] at this

theorem seqOption_cons_some {α : Type} {a : α} {ts : List (Option α)} :
    seqOption (some a :: ts) = (seqOption ts).map (a :: ·) := rfl

theorem seqOption_get {α : Type} :
    ∀ (l : List (Option α)) (out : List α), seqOption l = some out →
      ∀ i : Nat, l[i]? = (out[i]?).map some := by
  intro l
  induction l with
  | nil =>
    intro out h i
    cases h
    rfl
  | cons x ts ih =>
    intro out h i
    cases x with
    | none => cases h
    | some a =>
      rw [seqOption_cons_some] at h
      rcases Option.map_eq_some.mp h with ⟨out2, h2, rfl⟩
      cases i with
      | zero => rw [List.getElem?_cons_zero, List.getElem?_cons_zero]; rfl
      | succ j =>
        rw [List.getElem?_cons_succ, List.getElem?_cons_succ]
        exact ih out2 h2 j

theorem seqOption_mem {α : Type} {l : List (Option α)} {out : List α} {a : α}
    (h : seqOption l = some out) (ha : a ∈ out) : some a ∈ l := by
  rcases List.getElem?_of_mem ha with ⟨i, hi⟩
  have h2 := seqOption_get l out h i
  rw [hi] at h2
  exact List.getElem?_mem h2

theorem seqOption_isSome {α : Type} :
    ∀ l : List (Option α), (∀ x ∈ l, x.isSome) → ∃ out, seqOption l = some out := by
  intro l
  induction l with
  | nil => exact fun _ => ⟨[], rfl⟩
  | cons x ts ih =>
    intro h
    cases x with
    | none => exact absurd (h none (List.mem_cons_self _ _)) (by simp)
    | some a =>
      rcases ih (fun y hy => h y (List.mem_cons_of_mem _ hy)) with ⟨out2, h2⟩
      exact ⟨a :: out2, by rw [seqOption_cons_some, h2]; rfl⟩

theorem clean_eq_ok {batch : List RawEmployee} {out : List CleanedEmployee}
    (h : clean batch = .ok out) :
    seqOption (batch.map (cleanRow (salaryFill batch) (dateFill batch))) = some out := by
  unfold clean at h
  split at h
  · rename_i out2 h2
    injection h with h3
    rw [← h3]
    exact h2
  · cases h

theorem clean_of_seq {batch : List RawEmployee} {out : List CleanedEmployee}
    (h : seqOption (batch.map (cleanRow (salaryFill batch) (dateFill batch))) = some out) :
    clean batch = .ok out := by
  unfold clean
  rw [h]

theorem clean_row_spec {batch : List RawEmployee} {out : List CleanedEmployee}
    (h : clean batch = .ok out) {i : Nat} {r : RawEmployee} {c : CleanedEmployee}
    (hr : batch[i]? = some r) (hc : out[i]? = some c) :
    cleanRow (salaryFill batch) (dateFill batch) r = some c := by
  have hs := clean_eq_ok h
  have h2 := seqOption_get _ _ hs i
  rw [List.getElem?_map, hr, hc] at h2
  simpa using h2

theorem clean_mem_spec {batch : List RawEmployee} {out : List CleanedEmployee}
    (h : clean batch = .ok out) {c : CleanedEmployee} (hc : c ∈ out) :
    ∃ r ∈ batch, cleanRow (salaryFill batch) (dateFill batch) r = some c := by
  have h2 := seqOption_mem (clean_eq_ok h) hc
  rcases List.mem_map.mp h2 with ⟨r, hr, he⟩
  exact ⟨r, hr, he⟩

theorem cleanRow_eq_some {fS : Option ℚ} {fD : Int} {r : RawEmployee} {c : CleanedEmployee}
    (h : cleanRow fS fD r = some c) :
    ∃ q, (salaryAfterInvalid r).orElse (fun _ => fS) = some q ∧
      c = { name := r.name.getD "Unknown"
            position := pyTitle (pyStrip (r.position.getD "Unknown"))
            start_date := (dateAfterInvalid r).getD fD
            salary := astypeInt q
            issue_missing_name := r.name.isNone
            issue_missing_position := r.position.isNone
            issue_missing_start_date := rawDateIsna r.start_date
            issue_missing_salary := rawNumIsna r.salary
            issue_invalid_salary := issueInvalidSalary r
            issue_invalid_start_date := issueInvalidDate r
            has_any_issue := r.name.isNone || r.position.isNone || rawDateIsna r.start_date ||
              rawNumIsna r.salary || issueInvalidSalary r || issueInvalidDate r } := by
  unfold cleanRow at h
  split at h
  · cases h
  · rename_i q hq
    injection h with h2
    exact ⟨q, hq, h2.symm⟩

theorem orElse_some_left {α : Type} {a : α} (f : Unit → Option α) :
    (some a).orElse f = some a := rfl

theorem orElse_none_left {α : Type} (f : Unit → Option α) :
    (Option.none).orElse f = f () := rfl

theorem salaryAfterInvalid_bounds {r : RawEmployee} {q : ℚ}
    (h : salaryAfterInvalid r = some q) : SALARY_MIN ≤ q ∧ q ≤ SALARY_MAX := by
  unfold salaryAfterInvalid at h
  split at h
  · rename_i q2 hq2
    split at h
    · cases h
    · rename_i hrange
      injection h with h2
      push_neg at hrange
      rw [← h2]
      exact hrange
  · cases h

theorem validSalaries_bounds {batch : List RawEmployee} :
    ∀ q ∈ validSalaries batch, SALARY_MIN ≤ q ∧ q ≤ SALARY_MAX := by
  intro q hq
  rcases List.mem_filterMap.mp hq with ⟨r, _, hr⟩
  exact salaryAfterInvalid_bounds hr

theorem dateAfterInvalid_bounds {r : RawEmployee} {d : Int}
    (h : dateAfterInvalid r = some d) : DATE_MIN ≤ d ∧ d ≤ DATE_MAX := by
  unfold dateAfterInvalid at h
  split at h
  · rename_i d2 hd2
    split at h
    · cases h
    · rename_i hrange
      injection h with h2
      push_neg at hrange
      rw [← h2]
      exact hrange
  · cases h

theorem validDates_bounds {batch : List RawEmployee} :
    ∀ d ∈ validDates batch, DATE_MIN ≤ d ∧ d ≤ DATE_MAX := by
  intro d hd
  rcases List.mem_filterMap.mp hd with ⟨r, _, hr⟩
  exact dateAfterInvalid_bounds hr

theorem salaryFill_bounds {batch : List RawEmployee} {m : ℚ}
    (h : salaryFill batch = some m) : SALARY_MIN ≤ m ∧ m ≤ SALARY_MAX :=
  pandasMedian_bounds validSalaries_bounds h

theorem dateFill_bounds (batch : List RawEmployee) :
    DATE_MIN ≤ dateFill batch ∧ dateFill batch ≤ DATE_MAX := by
  unfold dateFill
  split
  · rename_i d hd
    exact validDates_bounds d (pandasModeHead_spec hd).1
  · exact ⟨by decide, by decide⟩

theorem imputed_salary_bounds {batch : List RawEmployee} {r : RawEmployee} {q : ℚ}
    (hq : (salaryAfterInvalid r).orElse (fun _ => salaryFill batch) = some q) :
    SALARY_MIN ≤ q ∧ q ≤ SALARY_MAX := by
  cases hsi : salaryAfterInvalid r with
  | some q2 =>
    rw [hsi, orElse_some_left] at hq
    injection hq with h2
    rw [← h2]
    exact salaryAfterInvalid_bounds hsi
  | none =>
    rw [hsi, orElse_none_left] at hq
    exact salaryFill_bounds hq

/-- Every record of a successfully cleaned batch has its salary in
`[60000, 200000]`, its start_date in `[2015-01-01, 2024-12-31]`, and its
position in strip-title normal form. -/
theorem clean_invariant {batch : List RawEmployee} {out : List CleanedEmployee}
    (h : clean batch = .ok out) :
    ∀ c ∈ out, (60000 : Int) ≤ c.salary ∧ c.salary ≤ 200000 ∧
      DATE_MIN ≤ c.start_date ∧ c.start_date ≤ DATE_MAX ∧
      ∃ p, c.position = pyTitle (pyStrip p) := by
  intro c hc
  rcases clean_mem_spec h hc with ⟨r, hr, hrow⟩
  rcases cleanRow_eq_some hrow with ⟨q, hq, rfl⟩
  have hqb := imputed_salary_bounds hq
  have hsal := astypeInt_bounds (a := 60000) (b := 200000) (by norm_num)
    (by exact_mod_cast hqb.1) (by exact_mod_cast hqb.2)
  refine ⟨hsal.1, hsal.2, ?_, ?_, ⟨_, rfl⟩⟩
  · cases hd : dateAfterInvalid r with
    | some d =>
      simp only [hd, Option.getD_some]
      exact (dateAfterInvalid_bounds hd).1
    | none =>
      simp only [hd, Option.getD_none]
      exact (dateFill_bounds batch).1
  · cases hd : dateAfterInvalid r with
    | some d =>
      simp only [hd, Option.getD_some]
      exact (dateAfterInvalid_bounds hd).2
    | none =>
      simp only [hd, Option.getD_none]
      exact (dateFill_bounds batch).2

theorem toNumeric_num (q : ℚ) : toNumeric (.num q) = some q := rfl

theorem toRaw_salary (c : CleanedEmployee) : (toRaw c).salary = .num (c.salary : ℚ) := rfl

theorem toRaw_start_date (c : CleanedEmployee) : (toRaw c).start_date = .day c.start_date := rfl

theorem salaryAfterInvalid_num {r : RawEmployee} {q : ℚ} (hr : r.salary = .num q)
    (h : ¬(q < SALARY_MIN ∨ q > SALARY_MAX)) : salaryAfterInvalid r = some q := by
  unfold salaryAfterInvalid
  rw [hr]
  show (if q < SALARY_MIN ∨ q > SALARY_MAX then none else some q) = some q
  rw [if_neg h]

theorem dateAfterInvalid_day {r : RawEmployee} {d : Int} (hr : r.start_date = .day d)
    (h : ¬(d < DATE_MIN ∨ d > DATE_MAX)) : dateAfterInvalid r = some d := by
  unfold dateAfterInvalid
  rw [hr]
  show (if d < DATE_MIN ∨ d > DATE_MAX then none else some d) = some d
  rw [if_neg h]

theorem issueInvalidSalary_false_of_num {r : RawEmployee} {q : ℚ} (hr : r.salary = .num q)
    (h1 : ¬ q < SALARY_MIN) (h2 : ¬ q > SALARY_MAX) : issueInvalidSalary r = false := by
  unfold issueInvalidSalary
  rw [hr]
  show (decide (q < SALARY_MIN) || decide (q > SALARY_MAX)) = false
  rw [decide_eq_false h1, decide_eq_false h2]
  rfl

theorem issueInvalidDate_false_of_day {r : RawEmployee} {d : Int} (hr : r.start_date = .day d)
    (h1 : ¬ d < DATE_MIN) (h2 : ¬ d > DATE_MAX) : issueInvalidDate r = false := by
  unfold issueInvalidDate
  rw [hr]
  show (decide (d < DATE_MIN) || decide (d > DATE_MAX)) = false
  rw [decide_eq_false h1, decide_eq_false h2]
  rfl

theorem issueInvalidSalary_txt {r : RawEmployee} {s : String} (hr : r.salary = .txt s) :
    issueInvalidSalary r = false := by
  unfold issueInvalidSalary
  rw [hr]
  rfl

theorem salaryAfterInvalid_txt {r : RawEmployee} {s : String} (hr : r.salary = .txt s) :
    salaryAfterInvalid r = none := by
  unfold salaryAfterInvalid
  rw [hr]
  rfl

theorem salaryAfterInvalid_null {r : RawEmployee} (hr : r.salary = .null) :
    salaryAfterInvalid r = none := by
  unfold salaryAfterInvalid
  rw [hr]
  rfl

theorem rawNumIsna_txt {r : RawEmployee} {s : String} (hr : r.salary = .txt s) :
    rawNumIsna r.salary = false := by
  rw [hr]
  rfl

theorem salaryAfterInvalid_eq_none_of_flag {r : RawEmployee}
    (h : rawNumIsna r.salary = true ∨ issueInvalidSalary r = true) :
    salaryAfterInvalid r = none := by
  rcases h with h | h
  · cases hs : r.salary with
    | null => exact salaryAfterInvalid_null hs
    | num q =>
      rw [hs] at h
      cases h
    | txt s =>
      rw [hs] at h
      cases h
  · cases hs : r.salary with
    | null => exact salaryAfterInvalid_null hs
    | txt s => exact salaryAfterInvalid_txt hs
    | num q =>
      have h2 : issueInvalidSalary r = (decide (q < SALARY_MIN) || decide (q > SALARY_MAX)) := by
        unfold issueInvalidSalary
        rw [hs]
        rfl
      rw [h2] at h
      have h3 : q < SALARY_MIN ∨ q > SALARY_MAX := by
        simpa using h
      unfold salaryAfterInvalid
      rw [hs]
      show (if q < SALARY_MIN ∨ q > SALARY_MAX then none else some q) = none
      rw [if_pos h3]

theorem validSalaries_ne_nil {batch : List RawEmployee}
    (hv : ∃ r ∈ batch, (salaryAfterInvalid r).isSome) : validSalaries batch ≠ [] := by
  rcases hv with ⟨r, hr, hs⟩
  obtain ⟨q, hq⟩ := Option.isSome_iff_exists.mp hs
  intro hnil
  have h2 : q ∈ validSalaries batch := List.mem_filterMap.mpr ⟨r, hr, hq⟩
  rw [hnil] at h2
  exact absurd h2 (List.not_mem_nil q)

theorem cleanRow_isSome_of_fill {fS : Option ℚ} {fD : Int} (r : RawEmployee) (h : fS.isSome) :
    (cleanRow fS fD r).isSome := by
  obtain ⟨m, rfl⟩ := Option.isSome_iff_exists.mp h
  unfold cleanRow
  cases hsi : salaryAfterInvalid r with
  | none => rfl
  | some q => rfl

theorem seqOption_map_all_some {α β : Type} (f : α → Option β) (g : α → β) :
    ∀ l : List α, (∀ a ∈ l, f a = some (g a)) → seqOption (l.map f) = some (l.map g) := by
  intro l
  induction l with
  | nil =>
    intro _
    rfl
  | cons a ts ih =>
    intro h
    rw [List.map_cons, h a (List.mem_cons_self a ts), seqOption_cons_some,
      ih (fun b hb => h b (List.mem_cons_of_mem a hb)), List.map_cons]
    rfl

/-- A record satisfying the post-cleaning invariant is a fixed point of one
row-cleaning pass: every field is kept and every flag comes out false,
independently of the batch fill values. -/
theorem cleanRow_toRaw {c : CleanedEmployee}
    (h1 : (60000 : Int) ≤ c.salary) (h2 : c.salary ≤ 200000)
    (h3 : DATE_MIN ≤ c.start_date) (h4 : c.start_date ≤ DATE_MAX)
    (h5 : ∃ p, c.position = pyTitle (pyStrip p)) (fS : Option ℚ) (fD : Int) :
    cleanRow fS fD (toRaw c) = some (resetFlags c) := by
  rcases h5 with ⟨p, hp⟩
  have hq1 : ¬ (c.salary : ℚ) < SALARY_MIN := by
    show ¬ (c.salary : ℚ) < (60000 : ℚ)
    push_neg
    exact_mod_cast h1
  have hq2 : ¬ (c.salary : ℚ) > SALARY_MAX := by
    show ¬ (c.salary : ℚ) > (200000 : ℚ)
    push_neg
    exact_mod_cast h2
  have hd1 : ¬ c.start_date < DATE_MIN := not_lt.mpr h3
  have hd2 : ¬ c.start_date > DATE_MAX := not_lt.mpr h4
  have hsal := salaryAfterInvalid_num (toRaw_salary c) (not_or.mpr ⟨hq1, hq2⟩)
  have hdate := dateAfterInvalid_day (toRaw_start_date c) (not_or.mpr ⟨hd1, hd2⟩)
  have hinv1 := issueInvalidSalary_false_of_num (toRaw_salary c) hq1 hq2
  have hinv2 := issueInvalidDate_false_of_day (toRaw_start_date c) hd1 hd2
  unfold cleanRow
  rw [hsal]
  show some
      { name := (toRaw c).name.getD "Unknown"
        position := pyTitle (pyStrip ((toRaw c).position.getD "Unknown"))
        start_date := (dateAfterInvalid (toRaw c)).getD fD
        salary := astypeInt (c.salary : ℚ)
        issue_missing_name := (toRaw c).name.isNone
        issue_missing_position := (toRaw c).position.isNone
        issue_missing_start_date := rawDateIsna (toRaw c).start_date
        issue_missing_salary := rawNumIsna (toRaw c).salary
        issue_invalid_salary := issueInvalidSalary (toRaw c)
        issue_invalid_start_date := issueInvalidDate (toRaw c)
        has_any_issue := (toRaw c).name.isNone || (toRaw c).position.isNone ||
          rawDateIsna (toRaw c).start_date || rawNumIsna (toRaw c).salary ||
          issueInvalidSalary (toRaw c) || issueInvalidDate (toRaw c) } = some (resetFlags c)
  rw [hdate, hinv1, hinv2, astypeInt_intCast]
  show some
      { name := c.name
        position := pyTitle (pyStrip c.position)
        start_date := c.start_date
        salary := c.salary
        issue_missing_name := false
        issue_missing_position := false
        issue_missing_start_date := false
        issue_missing_salary := false
        issue_invalid_salary := false
        issue_invalid_start_date := false
        has_any_issue := false } = some (resetFlags c)
  have hpos : pyTitle (pyStrip c.position) = c.position := by
    rw [hp]
    exact title_strip_idem p
  rw [hpos]
  rfl

theorem astypeInt_nonneg {q : ℚ} (h : 0 ≤ q) : astypeInt q = ⌊q⌋ :=
  if_pos h

/-- Evaluation of `clean` on `batchFracMedian`: the two valid salaries are
60000 and 60003, the missing one receives the truncated median 60001. -/
theorem clean_batchFracMedian_eq :
    clean batchFracMedian =
      .ok [⟨"A", "Dev", 20160101, 60000, false, false, false, false, false, false, false⟩,
           ⟨"B", "Dev", 20160101, 60003, false, false, false, false, false, false, false⟩,
           ⟨"C", "Dev", 20160101, 60001, false, false, false, true, false, false, true⟩] := by
  have h0 : clean batchFracMedian =
      .ok [⟨"A", "Dev", 20160101, astypeInt 60000, false, false, false, false, false, false,
            false⟩,
           ⟨"B", "Dev", 20160101, astypeInt 60003, false, false, false, false, false, false,
            false⟩,
           ⟨"C", "Dev", 20160101, astypeInt ((60000 + 60003 : ℚ) / 2), false, false, false,
            true, false, false, true⟩] := rfl
  have e1 : astypeInt ((60000 : ℚ)) = 60000 := by decide
  have e2 : astypeInt ((60003 : ℚ)) = 60003 := by decide
  have e3 : astypeInt ((60000 + 60003 : ℚ) / 2) = 60001 := by
    rw [astypeInt_nonneg (by norm_num), Int.floor_eq_iff]
    constructor
    · push_cast
      norm_num
    · push_cast
      norm_num
  rw [h0, e1, e2, e3]

/-- Evaluation of `clean` on the spec's median example. -/
theorem clean_batchMedianExample_eq :
    clean batchMedianExample = .ok outMedianExample := by
  have h0 : clean batchMedianExample =
      .ok [⟨"A", "Dev", 20160101, astypeInt 70000, false, false, false, false, false, false,
            false⟩,
           ⟨"B", "Dev", 20160101, astypeInt 80000, false, false, false, false, false, false,
            false⟩,
           ⟨"C", "Dev", 20160101, astypeInt ((70000 + 80000 : ℚ) / 2), false, false, false,
            false, true, false, true⟩,
           ⟨"D", "Dev", 20160101, astypeInt ((70000 + 80000 : ℚ) / 2), false, false, false,
            true, false, false, true⟩] := rfl
  have e1 : astypeInt ((70000 : ℚ)) = 70000 := by decide
  have e2 : astypeInt ((80000 : ℚ)) = 80000 := by decide
  have e3 : astypeInt ((70000 + 80000 : ℚ) / 2) = 75000 := by
    rw [show (70000 + 80000 : ℚ) / 2 = ((75000 : Int) : ℚ) by push_cast; norm_num,
      astypeInt_intCast]
  rw [h0, e1, e2, e3]
  rfl

/-- The salary fill of the spec's median example is 75000. -/
theorem salaryFill_batchMedianExample_eq :
    salaryFill batchMedianExample = some 75000 := by
  rw [show salaryFill batchMedianExample = some ((70000 + 80000 : ℚ) / 2) from rfl]
  exact congrArg some (by norm_num)

/-- C3 counterexample: a batch with a valid in-range salary whose `name` is
the empty string (not NA) cleans successfully and keeps the empty name, with
no flag raised — the claim's "name and position ... never empty (a field that
is absent, empty, or unparseable counts as missing)" is false on the code:
only NA counts as missing (`pd.isna("")` is `False` at cleaning.py line 18). -/
theorem clean_keeps_empty_name_cex :
    (∃ r ∈ [rowEmptyName], (salaryAfterInvalid r).isSome) ∧
    clean [rowEmptyName] =
      .ok [⟨"", "Dev", 20160101, 70000, false, false, false, false, false, false, false⟩] :=
  ⟨by decide, by decide⟩

/-- C3 (amended): for every raw employee batch with at least one valid
in-range salary, `clean` succeeds; every record has salary in
[60000, 200000] and start_date in [2015-01-01, 2024-12-31]; a NULL name or
position is filled with "Unknown" (so both are non-null) — but an empty
string is not NA, is not flagged, and survives cleaning. -/
theorem clean_post_invariant {batch : List RawEmployee}
    (hv : ∃ r ∈ batch, (salaryAfterInvalid r).isSome) :
    ∃ out, clean batch = .ok out ∧
      (∀ c ∈ out, (60000 : Int) ≤ c.salary ∧ c.salary ≤ 200000 ∧
        DATE_MIN ≤ c.start_date ∧ c.start_date ≤ DATE_MAX) ∧
      ∀ (i : Nat) (r : RawEmployee) (c : CleanedEmployee),
        batch[i]? = some r → out[i]? = some c →
        (r.name = none → c.name = "Unknown") ∧ (r.position = none → c.position = "Unknown") := by
  have hfill : (salaryFill batch).isSome := by
    rcases pandasMedian_isSome (validSalaries_ne_nil hv) with ⟨m, hm⟩
    unfold salaryFill
    rw [hm]
    rfl
  rcases seqOption_isSome (batch.map (cleanRow (salaryFill batch) (dateFill batch)))
      (fun x hx => by
        rcases List.mem_map.mp hx with ⟨r, _, rfl⟩
        exact cleanRow_isSome_of_fill r hfill) with ⟨out, hout⟩
  have hok := clean_of_seq hout
  refine ⟨out, hok, ?_, ?_⟩
  · intro c hc
    have h2 := clean_invariant hok c hc
    exact ⟨h2.1, h2.2.1, h2.2.2.1, h2.2.2.2.1⟩
  · intro i r c hr hc
    have hrow := clean_row_spec hok hr hc
    rcases cleanRow_eq_some hrow with ⟨q, hq, rfl⟩
    constructor
    · intro hn
      show r.name.getD "Unknown" = "Unknown"
      rw [hn]
      rfl
    · intro hp
      show pyTitle (pyStrip (r.position.getD "Unknown")) = "Unknown"
      rw [hp]
      decide

/-- Witness for `clean_post_invariant` at `batchWitness`. -/
theorem clean_post_invariant_witness :
    (∃ r ∈ batchWitness, (salaryAfterInvalid r).isSome) ∧
    (∃ out, clean batchWitness = .ok out ∧
      (∀ c ∈ out, (60000 : Int) ≤ c.salary ∧ c.salary ≤ 200000 ∧
        DATE_MIN ≤ c.start_date ∧ c.start_date ≤ DATE_MAX) ∧
      ∀ (i : Nat) (r : RawEmployee) (c : CleanedEmployee),
        batchWitness[i]? = some r → out[i]? = some c →
        (r.name = none → c.name = "Unknown") ∧ (r.position = none → c.position = "Unknown")) :=
  ⟨by decide, clean_post_invariant (by decide)⟩

/-- C9 counterexample: the empty batch contains no valid in-range salary, yet
`clean` returns `ok []` instead of raising, because `.astype(int)` succeeds on
an empty column — the claim as stated (quantified over every batch with no
valid salary) fails on the empty batch. -/
theorem clean_empty_batch_ok_cex :
    validSalaries ([] : List RawEmployee) = [] ∧ clean ([] : List RawEmployee) = .ok [] :=
  ⟨rfl, rfl⟩

/-- C9 (amended): for every batch with at least one row and no valid
(in-range) salary, `clean` raises the `.astype(int)` conversion error instead
of silently defaulting. -/
theorem clean_error_when_no_valid_salary {batch : List RawEmployee} (hne : batch ≠ [])
    (hv : ∀ r ∈ batch, salaryAfterInvalid r = none) :
    clean batch = .error "Cannot convert non-finite values (NA or inf) to integer" := by
  have hvs : validSalaries batch = [] := List.filterMap_eq_nil_iff.mpr hv
  have hfill : salaryFill batch = none := by
    unfold salaryFill
    rw [hvs]
    rfl
  cases batch with
  | nil => exact absurd rfl hne
  | cons r rest =>
    have h1 : cleanRow (salaryFill (r :: rest)) (dateFill (r :: rest)) r = none := by
      unfold cleanRow
      rw [hv r (List.mem_cons_self r rest),
        show (Option.none).orElse (fun _ => salaryFill (r :: rest)) = salaryFill (r :: rest)
          from rfl,
        hfill]
    unfold clean
    rw [List.map_cons, h1]
    rfl

/-- Witness for `clean_error_when_no_valid_salary` at `batchNoValidSalary`. -/
theorem clean_error_when_no_valid_salary_witness :
    batchNoValidSalary ≠ [] ∧ (∀ r ∈ batchNoValidSalary, salaryAfterInvalid r = none) ∧
    clean batchNoValidSalary = .error "Cannot convert non-finite values (NA or inf) to integer" :=
  ⟨by decide, by decide, clean_error_when_no_valid_salary (by decide) (by decide)⟩

/-- C4 counterexample: with valid salaries `[60000, 60003]` the median is
`60001.5`; the code's `.astype(int)` truncates the filled value to `60001`,
while rounding to the nearest integer (as the claim states) would give
`60002`. -/
theorem clean_median_truncated_not_rounded_cex :
    salaryFill batchFracMedian = some ((60000 + 60003 : ℚ) / 2) ∧
    specRoundNearest ((60000 + 60003 : ℚ) / 2) = 60002 ∧
    clean batchFracMedian =
      .ok [⟨"A", "Dev", 20160101, 60000, false, false, false, false, false, false, false⟩,
           ⟨"B", "Dev", 20160101, 60003, false, false, false, false, false, false, false⟩,
           ⟨"C", "Dev", 20160101, 60001, false, false, false, true, false, false, true⟩] ∧
    (60001 : Int) ≠ 60002 :=
  ⟨rfl,
    by
      unfold specRoundNearest
      rw [show (60000 + 60003 : ℚ) / 2 + 1 / 2 = ((60002 : Int) : ℚ) by push_cast; norm_num]
      exact Int.floor_intCast _,
    clean_batchFracMedian_eq, by decide⟩

/-- C4 (amended): in `clean`, every salary flagged missing or invalid is
filled with the median of the remaining valid in-range salaries, truncated
toward zero by `.astype(int)` (not rounded to nearest); on the spec's
example `[70000, 80000, 500000, missing]` both defective rows receive 75000. -/
theorem clean_flagged_salary_imputed_median {batch : List RawEmployee}
    {out : List CleanedEmployee} {i : Nat} {r : RawEmployee} {c : CleanedEmployee}
    (h : clean batch = .ok out) (hr : batch[i]? = some r) (hc : out[i]? = some c)
    (hf : c.issue_missing_salary = true ∨ c.issue_invalid_salary = true) :
    ∃ m, salaryFill batch = some m ∧ c.salary = astypeInt m := by
  have hrow := clean_row_spec h hr hc
  rcases cleanRow_eq_some hrow with ⟨q, hq, hceq⟩
  have hf2 : rawNumIsna r.salary = true ∨ issueInvalidSalary r = true := by
    rcases hf with hf | hf
    · left
      rw [hceq] at hf
      exact hf
    · right
      rw [hceq] at hf
      exact hf
  rw [salaryAfterInvalid_eq_none_of_flag hf2,
    show (Option.none).orElse (fun _ => salaryFill batch) = salaryFill batch from rfl] at hq
  refine ⟨q, hq, ?_⟩
  rw [hceq]

/-- Witness for `clean_flagged_salary_imputed_median` at the spec's median
example, row 3 (the missing salary, imputed to 75000 = the median of
[70000, 80000]). -/
theorem clean_flagged_salary_imputed_median_witness :
    clean batchMedianExample = .ok outMedianExample ∧
    salaryFill batchMedianExample = some 75000 ∧
    (∃ m, salaryFill batchMedianExample = some m ∧
      (⟨"D", "Dev", 20160101, 75000, false, false, false, true, false, false, true⟩ :
        CleanedEmployee).salary = astypeInt m) :=
  ⟨clean_batchMedianExample_eq, salaryFill_batchMedianExample_eq,
    clean_flagged_salary_imputed_median
      clean_batchMedianExample_eq
      (show batchMedianExample[3]? = some ⟨some "D", some "Dev", .day 20160101, .null⟩
        by decide)
      (show outMedianExample[3]? =
          some ⟨"D", "Dev", 20160101, 75000, false, false, false, true, false, false, true⟩
        by decide)
      (Or.inl (by decide))⟩

/-- C5 counterexample: with valid dates
`[2020-05-05, 2020-05-05, 2016-01-01, 2016-01-01]` the two dates tie, and the
first-encountered tied value (as the claim states the tie-break) is
`2020-05-05`; the code fills the missing date with `2016-01-01`, because
`mode()` returns the tied modes sorted ascending and `.iloc[0]` takes the
smallest. -/
theorem clean_date_mode_tie_smallest_cex :
    specFirstEncounteredMode (validDates batchDateTie) = some 20200505 ∧
    clean batchDateTie =
      .ok [⟨"A", "Dev", 20200505, 70000, false, false, false, false, false, false, false⟩,
           ⟨"B", "Dev", 20200505, 70000, false, false, false, false, false, false, false⟩,
           ⟨"C", "Dev", 20160101, 70000, false, false, false, false, false, false, false⟩,
           ⟨"D", "Dev", 20160101, 70000, false, false, false, false, false, false, false⟩,
           ⟨"E", "Dev", 20160101, 70000, false, false, true, false, false, false, true⟩] ∧
    (20160101 : Int) ≠ 20200505 :=
  ⟨by decide, by decide, by decide⟩

/-- C5 (amended): in `clean`, every missing or out-of-range start_date is
filled with the most frequent valid date of the batch, ties broken by the
smallest (earliest) tied date; if the batch has no valid date the fixed
default `2019-01-01` is used. -/
theorem clean_missing_date_imputed_mode {batch : List RawEmployee}
    {out : List CleanedEmployee} {i : Nat} {r : RawEmployee} {c : CleanedEmployee}
    (h : clean batch = .ok out) (hr : batch[i]? = some r) (hc : out[i]? = some c)
    (hm : dateAfterInvalid r = none) :
    (validDates batch = [] → c.start_date = DEFAULT_DATE) ∧
    (validDates batch ≠ [] →
      c.start_date ∈ validDates batch ∧
      (∀ x ∈ validDates batch,
        (validDates batch).count x ≤ (validDates batch).count c.start_date) ∧
      (∀ x ∈ validDates batch,
        (validDates batch).count x = (validDates batch).count c.start_date →
          c.start_date ≤ x)) := by
  have hrow := clean_row_spec h hr hc
  rcases cleanRow_eq_some hrow with ⟨q, hq, hceq⟩
  have hdate : c.start_date = dateFill batch := by
    rw [hceq]
    show (dateAfterInvalid r).getD (dateFill batch) = dateFill batch
    rw [hm]
    rfl
  constructor
  · intro hempty
    rw [hdate]
    unfold dateFill
    rw [show pandasModeHead (validDates batch) = none from by rw [hempty]; rfl]
  · intro hne
    rcases pandasModeHead_isSome hne with ⟨m, hmode⟩
    have hfd : dateFill batch = m := by
      unfold dateFill
      rw [hmode]
    rw [hdate, hfd]
    have hspec := pandasModeHead_spec hmode
    exact ⟨hspec.1, hspec.2.1, hspec.2.2⟩

/-- Witness for `clean_missing_date_imputed_mode` at the spec's mode example,
row 3 (the missing date, imputed to 2016-01-01). -/
theorem clean_missing_date_imputed_mode_witness :
    clean batchModeExample = .ok outModeExample ∧
    ((validDates batchModeExample = [] →
        (⟨"D", "Dev", 20160101, 70000, false, false, true, false, false, false, true⟩ :
          CleanedEmployee).start_date = DEFAULT_DATE) ∧
      (validDates batchModeExample ≠ [] →
        (⟨"D", "Dev", 20160101, 70000, false, false, true, false, false, false, true⟩ :
          CleanedEmployee).start_date ∈ validDates batchModeExample ∧
        (∀ x ∈ validDates batchModeExample,
          (validDates batchModeExample).count x ≤
            (validDates batchModeExample).count
              (⟨"D", "Dev", 20160101, 70000, false, false, true, false, false, false, true⟩ :
                CleanedEmployee).start_date) ∧
        (∀ x ∈ validDates batchModeExample,
          (validDates batchModeExample).count x =
            (validDates batchModeExample).count
              (⟨"D", "Dev", 20160101, 70000, false, false, true, false, false, false, true⟩ :
                CleanedEmployee).start_date →
            (⟨"D", "Dev", 20160101, 70000, false, false, true, false, false, false, true⟩ :
              CleanedEmployee).start_date ≤ x))) :=
  ⟨by decide,
    clean_missing_date_imputed_mode
      (show clean batchModeExample = .ok outModeExample by decide)
      (show batchModeExample[3]? = some ⟨some "D", some "Dev", .null, .num 70000⟩ by decide)
      (show outModeExample[3]? =
          some ⟨"D", "Dev", 20160101, 70000, false, false, true, false, false, false, true⟩
        by decide)
      (by decide)⟩

/-- C8 counterexample: a raw salary `"abc"` fails numeric coercion, yet the
cleaned record has `issue_missing_salary = false` (and also
`issue_invalid_salary = false`): the missing flag is computed on the raw
column at cleaning.py line 21, before `pd.to_numeric` at line 28, and
`pd.isna("abc")` is `False` — the claim's "issue_missing_salary is true for
it" is false on the code. -/
theorem clean_unparseable_salary_unflagged_cex :
    batchUnparseable[1]? = some ⟨some "B", some "Dev", .day 20160101, .txt "abc"⟩ ∧
    clean batchUnparseable =
      .ok [⟨"A", "Dev", 20160101, 70000, false, false, false, false, false, false, false⟩,
           ⟨"B", "Dev", 20160101, 70000, false, false, false, false, false, false, false⟩] :=
  ⟨by decide, by decide⟩

/-- C8 (amended): an unparseable salary receives neither flag — the missing
flag is computed on the raw column before coercion, and the NaN left by the
failed coercion compares false against both range bounds — but it is still
imputed with the batch median; the range check for `issue_invalid_salary` is
computed on the coerced value; a NULL salary does get
`issue_missing_salary = true`. -/
theorem clean_salary_flag_semantics :
    (∀ (batch : List RawEmployee) (out : List CleanedEmployee) (i : Nat) (r : RawEmployee)
        (c : CleanedEmployee) (s : String), clean batch = .ok out → batch[i]? = some r →
        out[i]? = some c → r.salary = .txt s →
        c.issue_missing_salary = false ∧ c.issue_invalid_salary = false ∧
        ∃ m, salaryFill batch = some m ∧ c.salary = astypeInt m) ∧
    (∀ (batch : List RawEmployee) (out : List CleanedEmployee) (i : Nat) (r : RawEmployee)
        (c : CleanedEmployee) (q : ℚ), clean batch = .ok out → batch[i]? = some r →
        out[i]? = some c → toNumeric r.salary = some q →
        c.issue_invalid_salary = (decide (q < SALARY_MIN) || decide (q > SALARY_MAX))) ∧
    (∀ (batch : List RawEmployee) (out : List CleanedEmployee) (i : Nat) (r : RawEmployee)
        (c : CleanedEmployee), clean batch = .ok out → batch[i]? = some r →
        out[i]? = some c → r.salary = .null → c.issue_missing_salary = true) := by
  refine ⟨?_, ?_, ?_⟩
  · intro batch out i r c s h hr hc hs
    have hrow := clean_row_spec h hr hc
    rcases cleanRow_eq_some hrow with ⟨q, hq, hceq⟩
    rw [salaryAfterInvalid_txt hs,
      show (Option.none).orElse (fun _ => salaryFill batch) = salaryFill batch from rfl] at hq
    refine ⟨?_, ?_, q, hq, ?_⟩
    · rw [hceq]
      exact rawNumIsna_txt hs
    · rw [hceq]
      exact issueInvalidSalary_txt hs
    · rw [hceq]
  · intro batch out i r c q h hr hc hn
    have hrow := clean_row_spec h hr hc
    rcases cleanRow_eq_some hrow with ⟨q2, hq2, hceq⟩
    rw [hceq]
    show issueInvalidSalary r = _
    unfold issueInvalidSalary
    rw [hn]
  · intro batch out i r c h hr hc hs
    have hrow := clean_row_spec h hr hc
    rcases cleanRow_eq_some hrow with ⟨q2, hq2, hceq⟩
    rw [hceq]
    show rawNumIsna r.salary = true
    rw [hs]
    rfl

/-- Witness for `clean_salary_flag_semantics` at `batchUnparseable` (row 1,
the `"abc"` salary) and `batchMedianExample` (row 3, the NULL salary). -/
theorem clean_salary_flag_semantics_witness :
    ((⟨"B", "Dev", 20160101, 70000, false, false, false, false, false, false, false⟩ :
        CleanedEmployee).issue_missing_salary = false ∧
      (⟨"B", "Dev", 20160101, 70000, false, false, false, false, false, false, false⟩ :
        CleanedEmployee).issue_invalid_salary = false ∧
      ∃ m, salaryFill batchUnparseable = some m ∧
        (⟨"B", "Dev", 20160101, 70000, false, false, false, false, false, false, false⟩ :
          CleanedEmployee).salary = astypeInt m) ∧
    (⟨"D", "Dev", 20160101, 75000, false, false, false, true, false, false, true⟩ :
      CleanedEmployee).issue_missing_salary = true :=
  ⟨clean_salary_flag_semantics.1 batchUnparseable
      [⟨"A", "Dev", 20160101, 70000, false, false, false, false, false, false, false⟩,
       ⟨"B", "Dev", 20160101, 70000, false, false, false, false, false, false, false⟩]
      1 ⟨some "B", some "Dev", .day 20160101, .txt "abc"⟩
      ⟨"B", "Dev", 20160101, 70000, false, false, false, false, false, false, false⟩
      "abc" (by decide) (by decide) (by decide) (by decide),
    clean_salary_flag_semantics.2.2 batchMedianExample outMedianExample
      3 ⟨some "D", some "Dev", .day 20160101, .null⟩
      ⟨"D", "Dev", 20160101, 75000, false, false, false, true, false, false, true⟩
      clean_batchMedianExample_eq (by decide) (by decide) (by decide)⟩

/-- C10: cleaning is idempotent — re-reading a successfully cleaned batch and
cleaning it again succeeds, keeps every field value, and computes every
issue flag (and the aggregate) as false. -/
theorem clean_idempotent {batch : List RawEmployee} {out : List CleanedEmployee}
    (h : clean batch = .ok out) :
    clean (out.map toRaw) = .ok (out.map resetFlags) := by
  apply clean_of_seq
  rw [List.map_map]
  exact seqOption_map_all_some _ _ out (fun c hc => by
    have h2 := clean_invariant h c hc
    exact cleanRow_toRaw h2.1 h2.2.1 h2.2.2.1 h2.2.2.2.1 h2.2.2.2.2 _ _)

/-- Witness for `clean_idempotent` at `batchWitness`. -/
theorem clean_idempotent_witness :
    clean batchWitness = .ok outWitness ∧
    clean (outWitness.map toRaw) = .ok (outWitness.map resetFlags) :=
  ⟨by decide, clean_idempotent (show clean batchWitness = .ok outWitness by decide)⟩

/-- The row-by-row replay: the committed state is always the original one;
when it reports a bad row, the connection is fully rolled back, the reported
tuple sits at the reported index, and that index is exactly the first point
at which the sequential replay from the initial state fails. -/
theorem rowByRowEmp_spec (orig : DB) :
    ∀ (ts : List EmpTuple) (pending : DB) (c : Conn) (e : EmpLoadErr),
      rowByRowEmp orig pending ts = (c, e) →
      c.committed = orig ∧
      ∀ j u, e = .badRow j u →
        c = ⟨orig, orig⟩ ∧ ts[j]? = some u ∧
        (runManyEmp pending (ts.take j)).2 = true ∧
        execInsertEmployee (runManyEmp pending (ts.take j)).1 u = none := by
  intro ts
  induction ts with
  | nil =>
    intro pending c e h
    simp only [rowByRowEmp] at h
    injection h with h1 h2
    subst h1
    subst h2
    refine ⟨rfl, ?_⟩
    intro j u hju
    cases hju
  | cons t ts ih =>
    intro pending c e h
    simp only [rowByRowEmp] at h
    split at h
    · rename_i p2 hex
      split at h
      · rename_i c2 j u hrr
        have hih := ih p2 c2 (.badRow j u) hrr
        injection h with h1 h2
        subst h1
        subst h2
        refine ⟨hih.1, ?_⟩
        intro j2 u2 hju
        injection hju with hj hu
        subst hu
        have hj2 : j2 = j + 1 := hj.symm
        subst hj2
        have hb := hih.2 j u rfl
        refine ⟨hb.1, ?_, ?_, ?_⟩
        · rw [List.getElem?_cons_succ]
          exact hb.2.1
        · rw [List.take_succ_cons]
          simp only [runManyEmp]
          rw [hex]
          exact hb.2.2.1
        · rw [List.take_succ_cons]
          simp only [runManyEmp]
          rw [hex]
          exact hb.2.2.2
      · rename_i c2 hrr
        have hih := ih p2 c2 .origErr hrr
        injection h with h1 h2
        subst h1
        subst h2
        refine ⟨hih.1, ?_⟩
        intro j u hju
        cases hju
    · rename_i hex
      injection h with h1 h2
      subst h1
      subst h2
      refine ⟨rfl, ?_⟩
      intro j u hju
      injection hju with hj hu
      subst hu
      have hj0 : j = 0 := hj.symm
      subst hj0
      exact ⟨rfl, List.getElem?_cons_zero, rfl, hex⟩

/-- C1 counterexample: on a batch of 10 employee rows whose row at index 5 has
a NULL `employee_id` (a non-nullable column), `insert_employees_df` reports
index 5 with its value tuple — but commits zero rows, not 9: the row-by-row
replay runs in one shared transaction and the rollback on the failing row
discards the replayed good rows, so the well-formed rows are not durably
stored.  The second conjunct shows row 0 is well-formed (it succeeds on its
own). -/
theorem loader_zero_commits_cex :
    insertEmployeesDf DB.empty batchTenRows =
      (⟨DB.empty, DB.empty⟩, some (.badRow 5 empTupleBad)) ∧
    (execInsertEmployee DB.empty (prepEmp (empRowOk 1))).isSome = true :=
  ⟨by decide, by decide⟩

/-- C1 (amended): for every employee batch on which the loader raises, no row
is durably committed — the committed state is unchanged — and when a bad row
is reported, the reported tuple sits at the reported batch index and that
index is exactly the first index at which the sequential replay (in original
batch order, hence deterministic) fails. -/
theorem insertEmployeesDf_failure_atomic {db : DB} {rows : List EmpIn} {e : EmpLoadErr}
    (h : (insertEmployeesDf db rows).2 = some e) :
    (insertEmployeesDf db rows).1.committed = db ∧
    ∀ j u, e = .badRow j u →
      (rows.map prepEmp)[j]? = some u ∧
      (runManyEmp db ((rows.map prepEmp).take j)).2 = true ∧
      execInsertEmployee (runManyEmp db ((rows.map prepEmp).take j)).1 u = none := by
  unfold insertEmployeesDf at h ⊢
  split at h
  · rename_i p hrun
    cases h
  · rename_i p hrun
    split at h
    rename_i c e2 hrr
    injection h with h2
    subst h2
    have hspec := rowByRowEmp_spec db (rows.map prepEmp) db c e2 hrr
    exact ⟨hspec.1, fun j u hju =>
      ⟨(hspec.2 j u hju).2.1, (hspec.2 j u hju).2.2.1, (hspec.2 j u hju).2.2.2⟩⟩

/-- Witness for `insertEmployeesDf_failure_atomic` at `batchTenRows`. -/
theorem insertEmployeesDf_failure_atomic_witness :
    (insertEmployeesDf DB.empty batchTenRows).2 = some (.badRow 5 empTupleBad) ∧
    (insertEmployeesDf DB.empty batchTenRows).1.committed = DB.empty ∧
    ((batchTenRows.map prepEmp)[5]? = some empTupleBad ∧
      (runManyEmp DB.empty ((batchTenRows.map prepEmp).take 5)).2 = true ∧
      execInsertEmployee (runManyEmp DB.empty ((batchTenRows.map prepEmp).take 5)).1
        empTupleBad = none) :=
  ⟨by decide,
    (insertEmployeesDf_failure_atomic (e := .badRow 5 empTupleBad) (by decide)).1,
    (insertEmployeesDf_failure_atomic (e := .badRow 5 empTupleBad) (by decide)).2 5
      empTupleBad rfl⟩

/-- C2 counterexample: a two-row employee batch whose first row is well-formed
(it succeeds on its own, first conjunct) and whose second row is malformed
ends with an empty committed store: the row that succeeded in row-by-row mode
did not commit independently.  And a failing projects batch is rolled back
and re-raised with no row-by-row replay and no reported row (the error
carries no index/tuple). -/
theorem loader_no_independent_commit_cex :
    (execInsertEmployee DB.empty (prepEmp (empRowOk 1))).isSome = true ∧
    insertEmployeesDf DB.empty [empRowOk 1, empRowBad] =
      (⟨DB.empty, DB.empty⟩, some (.badRow 1 empTupleBad)) ∧
    insertProjectsDf DB.empty [projRowBig] = (⟨DB.empty, DB.empty⟩, some ()) :=
  ⟨by decide, by decide, by decide⟩

/-- C2 (amended): for employees, when the batch attempt fails and the
row-by-row replay reports a row, the connection is fully rolled back —
pending equals committed equals the initial state — before the error
propagates, and the reported tuple is the prepared value tuple at the
reported index; the replay shares one transaction, so no replayed row
commits.  For projects there is no replay: on failure the transaction is
rolled back and the error re-raised with no row report. -/
theorem loader_rollback_before_reraise :
    (∀ (db : DB) (rows : List EmpIn) (i : Nat) (t : EmpTuple),
      (insertEmployeesDf db rows).2 = some (.badRow i t) →
      (insertEmployeesDf db rows).1 = ⟨db, db⟩ ∧ (rows.map prepEmp)[i]? = some t) ∧
    (∀ (db : DB) (rows : List ProjIn), (insertProjectsDf db rows).2 = some () →
      (insertProjectsDf db rows).1 = ⟨db, db⟩) := by
  constructor
  · intro db rows i t h
    unfold insertEmployeesDf at h ⊢
    split at h
    · cases h
    · rename_i p hrun
      split at h
      rename_i c e2 hrr
      injection h with h2
      have hspec := rowByRowEmp_spec db (rows.map prepEmp) db c e2 hrr
      have hb := hspec.2 i t h2
      exact ⟨hb.1, hb.2.1⟩
  · intro db rows h
    unfold insertProjectsDf at h ⊢
    split at h
    · cases h
    · rfl

/-- Witness for `loader_rollback_before_reraise` at the two-row employee
batch and the one-row projects batch. -/
theorem loader_rollback_before_reraise_witness :
    ((insertEmployeesDf DB.empty [empRowOk 1, empRowBad]).1 = ⟨DB.empty, DB.empty⟩ ∧
      ([empRowOk 1, empRowBad].map prepEmp)[1]? = some empTupleBad) ∧
    (insertProjectsDf DB.empty [projRowBig]).1 = ⟨DB.empty, DB.empty⟩ :=
  ⟨loader_rollback_before_reraise.1 DB.empty [empRowOk 1, empRowBad] 1 empTupleBad
      (by decide),
    loader_rollback_before_reraise.2 DB.empty [projRowBig] (by decide)⟩

theorem pgIntOk_pgClamp (q : ℚ) : pgIntOk (some (pgClamp q)) = true := by
  rw [show pgIntOk (some (pgClamp q)) =
      (decide (PG_INT_MIN ≤ pgClamp q) && decide (pgClamp q ≤ PG_INT_MAX)) from rfl]
  unfold pgClamp
  split
  · decide
  · split
    · decide
    · rename_i h1 h2
      rw [Bool.and_eq_true, decide_eq_true_eq, decide_eq_true_eq]
      exact ⟨not_lt.mp h2, not_lt.mp h1⟩

/-- C6: the entity-specific conflict policy of the four INSERT statements:
employees ignore a duplicate `employee_id` (first writer wins, the stored
table is unchanged); departments and projects update every non-key column on
a duplicate natural key (last writer wins); assignments ignore a duplicate
composite key. -/
theorem conflict_policy :
    (∀ (db : DB) (t : EmpTuple) (k : ℚ), t.employee_id = some k →
      pgIntOk t.employee_id = true → pgIntOk t.salary = true →
      pgIntOk t.department_id = true →
      (∃ r ∈ db.employees, r.employee_id = k) →
      execInsertEmployee db t = some db) ∧
    (∀ (db : DB) (n l : String) (b : Int), pgIntOk (some (b : ℚ)) = true →
      (∃ r ∈ db.departments, r.department_name = n) →
      execInsertDept db (n, l, b) =
        some { db with departments := db.departments.map (fun r =>
          if r.department_name = n then { r with location := l, budget := b } else r) }) ∧
    (∀ (db : DB) (t : ProjTuple) (n ty : String) (sd : Int) (bq : ℚ),
      t.project_name = some n → t.project_type = some ty → t.start_date = some sd →
      t.budget = some bq → pgIntOk t.budget = true →
      (∃ r ∈ db.projects, r.project_name = n) →
      execInsertProject db t =
        some { db with projects := db.projects.map (fun r =>
          if r.project_name = n then
            { r with project_type := ty, start_date := sd, end_date := t.end_date, budget := bq }
          else r) }) ∧
    (∀ (db : DB) (t : AsgTuple) (e p : ℚ), t.employee_id = some e → t.project_id = some p →
      pgIntOk t.employee_id = true → pgIntOk t.project_id = true →
      (∃ r ∈ db.employee_projects, r.employee_id = e ∧ r.project_id = p) →
      execInsertAsg db t = some db) := by
  refine ⟨?_, ?_, ?_, ?_⟩
  · intro db t k ht h1 h2 h3 hex
    have hany : db.employees.any (fun r => r.employee_id = k) = true := by
      rcases hex with ⟨r, hr, hrk⟩
      exact List.any_eq_true.mpr ⟨r, hr, by simp [hrk]⟩
    unfold execInsertEmployee
    rw [if_neg (by simp [h1, h2, h3]), ht]
    show (if db.employees.any (fun r => r.employee_id = k) = true then some db else _) = some db
    rw [if_pos hany]
  · intro db n l b hb hex
    have hany : db.departments.any (fun r => r.department_name = n) = true := by
      rcases hex with ⟨r, hr, hrn⟩
      exact List.any_eq_true.mpr ⟨r, hr, by simp [hrn]⟩
    unfold execInsertDept
    rw [if_neg (by simp [hb]), if_pos hany]
  · intro db t n ty sd bq h1 h2 h3 h4 hb hex
    have hany : db.projects.any (fun r => r.project_name = n) = true := by
      rcases hex with ⟨r, hr, hrn⟩
      exact List.any_eq_true.mpr ⟨r, hr, by simp [hrn]⟩
    unfold execInsertProject
    rw [if_neg (by simp [hb]), h1, h2, h3, h4]
    show (if db.projects.any (fun r => r.project_name = n) = true then _ else _) = _
    rw [if_pos hany]
  · intro db t e p h1 h2 h3 h4 hex
    have hany :
        db.employee_projects.any (fun r => r.employee_id = e ∧ r.project_id = p) = true := by
      rcases hex with ⟨r, hr, hrk⟩
      exact List.any_eq_true.mpr ⟨r, hr, by simp [hrk.1, hrk.2]⟩
    unfold execInsertAsg
    rw [if_neg (by simp [h3, h4]), h1, h2]
    show (if db.employee_projects.any (fun r => r.employee_id = e ∧ r.project_id = p) = true
        then some db else _) = some db
    rw [if_pos hany]

/-- Witness for `conflict_policy` on singleton databases: a duplicate
employee id 7 leaves the store unchanged; re-seeding department "R" with a
new location and budget overwrites the non-key columns; re-inserting project
"P" overwrites its non-key columns; a duplicate (7, 1) assignment leaves the
store unchanged. -/
theorem conflict_policy_witness :
    execInsertEmployee dbOneEmp ⟨some 7, some "B", some "QA", some 20210101, some 80000,
      none, true⟩ = some dbOneEmp ∧
    execInsertDept dbOneDept ("R", "Y", 200) =
      some ⟨[⟨1, "R", "Y", 200⟩], [], [], []⟩ ∧
    execInsertProject dbOneProj ⟨some "P", some "U", some 20210101, some 20220101,
      some 900⟩ = some ⟨[], [], [⟨1, "P", "U", 20210101, some 20220101, 900⟩], []⟩ ∧
    execInsertAsg dbOneAsg ⟨some 7, some 1, some "Extra"⟩ = some dbOneAsg :=
  ⟨conflict_policy.1 dbOneEmp ⟨some 7, some "B", some "QA", some 20210101, some 80000,
      none, true⟩ 7 rfl (by decide) (by decide) (by decide)
      ⟨⟨7, some "A", some "Dev", some 20200101, some 70000, none, false⟩, by decide, rfl⟩,
    (conflict_policy.2.1 dbOneDept "R" "Y" 200 (by decide)
      ⟨⟨1, "R", "X", 100⟩, by decide, rfl⟩).trans (by decide),
    (conflict_policy.2.2.1 dbOneProj ⟨some "P", some "U", some 20210101, some 20220101,
      some 900⟩ "P" "U" 20210101 900 rfl rfl rfl rfl (by decide)
      ⟨⟨1, "P", "T", 20200101, none, 500⟩, by decide, rfl⟩).trans (by decide),
    conflict_policy.2.2.2 dbOneAsg ⟨some 7, some 1, some "Extra"⟩ 7 1 rfl rfl (by decide)
      (by decide) ⟨⟨7, 1, some "Lead"⟩, by decide, ⟨rfl, rfl⟩⟩⟩

/-- C7 counterexample: the projects loader coerces `budget` but does not
clamp it — a budget of 3000000000 is passed through unclamped (not pinned to
2147483647) and the INSERT is rejected by the INTEGER column, rolling the
batch back; the departments seeder performs no numeric preparation at all and
an oversized budget is likewise rejected, not pinned. -/
theorem projects_departments_not_clamped_cex :
    (prepProj projRowBig).budget = some 3000000000 ∧
    (prepProj projRowBig).budget ≠ some PG_INT_MAX ∧
    insertProjectsDf DB.empty [projRowBig] = (⟨DB.empty, DB.empty⟩, some ()) ∧
    seedDepartments DB.empty [("R", "X", 3000000000)] = (⟨DB.empty, DB.empty⟩, some ()) :=
  ⟨by decide, by decide, by decide, by decide⟩

/-- C7 (amended): in `insert_employees_df` the three integer columns
`employee_id`, `salary` and `department_id` are clamped to the PostgreSQL
INTEGER range — values above the maximum are pinned to exactly the maximum,
values below the minimum to exactly the minimum, in-range values pass
through — so every prepared employee value fits the column range; the
departments and projects budget columns receive no such clamp. -/
theorem employees_columns_clamped :
    (∀ q : ℚ, q > PG_INT_MAX → pgClamp q = PG_INT_MAX) ∧
    (∀ q : ℚ, q < PG_INT_MIN → pgClamp q = PG_INT_MIN) ∧
    (∀ q : ℚ, ¬ q > PG_INT_MAX → ¬ q < PG_INT_MIN → pgClamp q = q) ∧
    (∀ (r : EmpIn) (q : ℚ), toNumeric r.employee_id = some q →
      (prepEmp r).employee_id = some (pgClamp q)) ∧
    (∀ (r : EmpIn) (q : ℚ), toNumeric r.salary = some q →
      (prepEmp r).salary = some (pgClamp q)) ∧
    (∀ (r : EmpIn) (q : ℚ), toNumeric r.department_id = some q →
      (prepEmp r).department_id = some (pgClamp q)) ∧
    (∀ r : EmpIn, pgIntOk (prepEmp r).employee_id = true ∧
      pgIntOk (prepEmp r).salary = true ∧ pgIntOk (prepEmp r).department_id = true) := by
  have hclampOk : ∀ x : RawNum, pgIntOk ((toNumeric x).map pgClamp) = true := by
    intro x
    cases hn : toNumeric x with
    | none => rfl
    | some q => exact pgIntOk_pgClamp q
  refine ⟨?_, ?_, ?_, ?_, ?_, ?_, ?_⟩
  · intro q h
    unfold pgClamp
    rw [if_pos h]
  · intro q h
    have h2 : ¬ q > PG_INT_MAX := by
      intro h3
      have : PG_INT_MIN < PG_INT_MAX := by decide
      exact absurd (lt_trans h3 h) (by simp [not_lt.mpr (le_of_lt this)])
    unfold pgClamp
    rw [if_neg h2, if_pos h]
  · intro q h1 h2
    unfold pgClamp
    rw [if_neg h1, if_neg h2]
  · intro r q h
    unfold prepEmp
    rw [h]
    rfl
  · intro r q h
    unfold prepEmp
    rw [h]
    rfl
  · intro r q h
    unfold prepEmp
    rw [h]
    rfl
  · intro r
    exact ⟨hclampOk r.employee_id, hclampOk r.salary, hclampOk r.department_id⟩

/-- Witness for `employees_columns_clamped` at an employee row whose id
exceeds the INTEGER maximum. -/
theorem employees_columns_clamped_witness :
    pgClamp 3000000000 = PG_INT_MAX ∧
    (prepEmp bigEmpRow).employee_id = some (pgClamp 3000000000) ∧
    pgIntOk (prepEmp bigEmpRow).employee_id = true :=
  ⟨employees_columns_clamped.1 3000000000 (by decide),
    employees_columns_clamped.2.2.2.1 bigEmpRow 3000000000 rfl,
    (employees_columns_clamped.2.2.2.2.2.2 bigEmpRow).1⟩

end WW
